import Mathlib

/-!
# EduSense AI — Attendance Synchronization Engine: formal model

A shallow embedding of the core of `src/main.py` (identity index, background
video analyzer, manual attendance, session close) and the relevant parts of
`src/models.py` (the `log_absensi` schema) and
`src/helpers/video_extractor.py` (the frame-sampling loop).

Modelling conventions:
* SQL rows become Lean structures; tables are lists of rows; the ORM session
  plus commit becomes a pure state transformer on a `DB` value.  An aborted
  request (`HTTPException` before `commit`) is an `Except.error`, which leaves
  the `DB` untouched by construction (SQLAlchemy rolls the session back).
* `datetime` values are modelled by `Timestamp` (calendar day + time of day);
  `func.date(x)` is `x.day`.  The Python code reads the clock twice (once for
  `today`, once per `func.now()` write); the model keeps both as explicit
  parameters `today` and `now`, and theorems that need the two reads to agree
  carry the hypothesis `now.day = today`.
* float vectors become `List ℚ`; the float `np.linalg.norm` is threaded as an
  explicit parameter (for `identify_face_fast`) or oracle function `normOf`
  (for the bulk reload), since exact square roots are not rational.
* Mutating the ORM row object returned by `.scalars().first()` is modelled by
  `updateFirst`: replace the first row matching the query predicate.
-/

namespace EduSense

/-- A `datetime` value: calendar day plus time of day.
`func.date(waktu_absen) == today` becomes `waktu_absen.day = today`. -/
structure Timestamp where
  day : Nat
  tod : Nat
deriving DecidableEq, Repr

/-- Row of table `mahasiswa` (models.py): primary key `nim`, nullable
pgvector column `embedding_data`. -/
structure Mahasiswa where
  nim : String
  embedding_data : Option (List ℚ)
deriving DecidableEq, Repr

/-- Row of table `kelas_enrollment` (models.py): `nim` and
`student_class_id` are both `nullable=False`. -/
structure KelasEnrollment where
  enrollment_id : Nat
  nim : String
  student_class_id : Nat
deriving DecidableEq, Repr

/-- Row of table `jadwal` (models.py).  `student_class_id` is declared
`nullable=False` in the schema, but `main.py` line 846 guards
`if jadwal_obj.student_class_id:` and has a legacy branch for its absence,
so the model keeps it as an `Option`. -/
structure Jadwal where
  jadwal_id : Nat
  dosen_username : String
  student_class_id : Option Nat
deriving DecidableEq, Repr

/-- Row of table `video_tasks` (models.py). -/
structure VideoTask where
  task_db_id : Nat
  task_id : String
  dosen_username : String
  jadwal_id : Option Nat
  filename : String
  status : String
  is_closed : Bool
deriving DecidableEq, Repr

/-- Row of table `log_absensi` (models.py).  `jumlah_muncul` is kept as a
plain `Nat`: every writer in `main.py` stores a concrete non-negative count
(`meta['count']`, `1`, `0`), matching the spec's non-nullable
`appearance_count`. -/
structure LogAbsensi where
  log_id : Nat
  task_id : Option String
  nim : String
  jadwal_id : Option Nat
  waktu_absen : Timestamp
  metode : String
  jumlah_muncul : Nat
  emosi_dominan : Option String
  bukti_foto : Option String
  is_disputed : Bool
  keterangan_report : Option String
deriving DecidableEq, Repr

/-- The relational store visible to the attendance engine.  `next_log_id`
models the autoincrementing primary key of `log_absensi`. -/
structure DB where
  mahasiswa : List Mahasiswa
  kelas_enrollment : List KelasEnrollment
  jadwal : List Jadwal
  video_tasks : List VideoTask
  log_absensi : List LogAbsensi
  next_log_id : Nat
deriving DecidableEq, Repr

/-- Replace the first element satisfying `p` by its `f`-image: this is how a
mutation of the single ORM object returned by `.scalars().first()` acts on
the table. -/
def updateFirst {α : Type} (p : α → Bool) (f : α → α) : List α → List α
  | [] => []
  | x :: xs => if p x then f x :: xs else x :: updateFirst p f xs

/-- The strict-binding attendance key used by every lookup in `main.py`:
`LogAbsensi.nim == nim AND LogAbsensi.jadwal_id == jadwal_id AND
func.date(LogAbsensi.waktu_absen) == today`. -/
def logMatches (nim : String) (jadwal_id : Nat) (today : Nat) (l : LogAbsensi) : Bool :=
  l.nim == nim && l.jadwal_id == some jadwal_id && l.waktu_absen.day == today

/-- `select(LogAbsensi).where(...)...first()` on the strict-binding key. -/
def findLog (logs : List LogAbsensi) (nim : String) (jadwal_id : Nat) (today : Nat) :
    Option LogAbsensi :=
  logs.find? (logMatches nim jadwal_id today)

/-- `select(Jadwal).where(Jadwal.jadwal_id == jadwal_id)...first()`. -/
def findJadwal (db : DB) (jadwal_id : Nat) : Option Jadwal :=
  db.jadwal.find? (fun j => j.jadwal_id == jadwal_id)

/-- `select(KelasEnrollment.nim).where(student_class_id == scid)` —
the nims enrolled in one student class (cohort). -/
def enrolledNims (db : DB) (scid : Nat) : List String :=
  (db.kelas_enrollment.filter (fun e => e.student_class_id == scid)).map (·.nim)

/-- Per-student aggregated evidence of one video
(`detected_students[nim]` in `main.py`): appearance count, affect tally in
insertion order, first saved crop path. -/
structure Evidence where
  count : Nat
  emosi : List (String × Nat)
  sample : Option String
deriving DecidableEq, Repr

/-- `max(meta['emosi'], key=meta['emosi'].get)` with default `"Neutral"`
for an empty tally; Python's `max` keeps the first key among ties. -/
def dominantEmotion (tally : List (String × Nat)) : String :=
  match tally with
  | [] => "Neutral"
  | kv :: rest => (rest.foldl (fun best x => if x.2 > best.2 then x else best) kv).1

/-- The fresh `AI_VIDEO` row inserted by `background_video_analyzer`
(main.py lines 886–896). -/
def newAutoLog (log_id : Nat) (task_id : String) (nim : String) (jadwal_id : Nat)
    (now : Timestamp) (ev : Evidence) : LogAbsensi :=
  { log_id := log_id, task_id := some task_id, nim := nim,
    jadwal_id := some jadwal_id, waktu_absen := now,
    metode := "AI_VIDEO", jumlah_muncul := ev.count,
    emosi_dominan := some (dominantEmotion ev.emosi),
    bukti_foto := ev.sample, is_disputed := false,
    keterangan_report := none }

/-- The smart-upsert body of the per-student loop in
`background_video_analyzer` (main.py lines 873–908): look up the
strict-binding record; insert a fresh `AI_VIDEO` row if none, merge the
count if the existing row is `AI_VIDEO`, otherwise leave the row alone. -/
def upsertAuto (logs : List LogAbsensi) (nextId : Nat) (task_id : String)
    (jadwal_id : Nat) (today : Nat) (now : Timestamp)
    (nim : String) (ev : Evidence) : List LogAbsensi × Nat :=
  match findLog logs nim jadwal_id today with
  | none => (logs ++ [newAutoLog nextId task_id nim jadwal_id now ev], nextId + 1)
  | some l =>
      if l.metode == "AI_VIDEO" then
        (updateFirst (logMatches nim jadwal_id today)
          (fun r => { r with jumlah_muncul := r.jumlah_muncul + ev.count }) logs,
         nextId)
      else (logs, nextId)

/-- One turn of the `for nim, meta in detected_students.items()` loop
(main.py lines 862–908): skip the student when enrollment filtering is
active and the student is not enrolled, otherwise run the smart upsert. -/
def bvaStep (enrolled : Option (List String)) (task_id : String)
    (jadwal_id today : Nat) (now : Timestamp)
    (acc : List LogAbsensi × Nat) (p : String × Evidence) : List LogAbsensi × Nat :=
  match enrolled with
  | some ens =>
      if ens.contains p.1 then
        upsertAuto acc.1 acc.2 task_id jadwal_id today now p.1 p.2
      else acc
  | none => upsertAuto acc.1 acc.2 task_id jadwal_id today now p.1 p.2

/-- The transactional tail of `background_video_analyzer`
(main.py lines 828–911): mark the task completed, resolve the jadwal (a
missing jadwal returns before commit, so the store is untouched), fetch the
enrolled nims when the jadwal has a `student_class_id`, then run the
smart upsert over the per-student evidence, skipping students that are not
enrolled whenever enrollment filtering is active. -/
def background_video_analyzer (db : DB) (task_id : String) (jadwal_id : Nat)
    (detected : List (String × Evidence)) (today : Nat) (now : Timestamp) : DB :=
  match findJadwal db jadwal_id with
  | none => db
  | some jadwal_obj =>
      let tasks := updateFirst (fun t => t.task_id == task_id)
        (fun t => { t with status := "completed" }) db.video_tasks
      let enrolled : Option (List String) :=
        match jadwal_obj.student_class_id with
        | some scid => some (enrolledNims db scid)
        | none => none
      let res := detected.foldl (bvaStep enrolled task_id jadwal_id today now)
        (db.log_absensi, db.next_log_id)
      { db with video_tasks := tasks, log_absensi := res.1, next_log_id := res.2 }

/-- The force-update of an existing row in `endpoint_manual_absen`
(main.py lines 1167–1173): set `metode`, clear the dispute flag and reason,
refresh the timestamp; nothing else is touched. -/
def manualOverwrite (now : Timestamp) (r : LogAbsensi) : LogAbsensi :=
  { r with metode := "MANUAL_DOSEN", is_disputed := false,
           keterangan_report := none, waktu_absen := now }

/-- The fresh row inserted by `endpoint_manual_absen`
(main.py lines 1174–1185). -/
def newManualLog (log_id : Nat) (nim : String) (jadwal_id : Nat) (now : Timestamp) :
    LogAbsensi :=
  { log_id := log_id, task_id := none, nim := nim,
    jadwal_id := some jadwal_id, waktu_absen := now,
    metode := "MANUAL_DOSEN", jumlah_muncul := 1,
    emosi_dominan := some "Manual Input", bukti_foto := none,
    is_disputed := false, keterangan_report := none }

/-- `endpoint_manual_absen` (main.py lines 1127–1189): 404 if the nim is
unknown, 404 if the jadwal is unknown, 403 if the student is not enrolled in
the jadwal's student class; otherwise force the strict-binding record to
`MANUAL_DOSEN` (clearing the dispute flag and reason and refreshing the
timestamp), inserting a fresh row with `jumlah_muncul=1` when none exists. -/
def endpoint_manual_absen (db : DB) (nim : String) (jadwal_id : Nat)
    (today : Nat) (now : Timestamp) : Except String DB :=
  if (db.mahasiswa.find? (fun m => m.nim == nim)).isNone then
    .error "NIM tidak ditemukan."
  else
    match findJadwal db jadwal_id with
    | none => .error "Jadwal tidak ditemukan."
    | some jadwal =>
        match db.kelas_enrollment.find?
            (fun e => e.nim == nim && some e.student_class_id == jadwal.student_class_id) with
        | none => .error "Mahasiswa tidak terdaftar di kelas ini."
        | some _ =>
            match findLog db.log_absensi nim jadwal_id today with
            | some _ =>
                let logs1 := updateFirst (logMatches nim jadwal_id today)
                  (manualOverwrite now) db.log_absensi
                .ok { db with log_absensi := logs1 }
            | none =>
                .ok { db with
                  log_absensi := db.log_absensi ++
                    [newManualLog db.next_log_id nim jadwal_id now],
                  next_log_id := db.next_log_id + 1 }

/-- The join in `close_class_session` step 2: one output row per enrollment
row whose student class matches and whose mahasiswa row has a non-null
embedding; `set(...)` then deduplicates the nims. -/
def closeEnrolledNims (db : DB) (scid : Option Nat) : List String :=
  ((db.kelas_enrollment.filter (fun e =>
      (some e.student_class_id == scid) &&
      (db.mahasiswa.find? (fun m => m.nim == e.nim && m.embedding_data.isSome)).isSome)).map
    (·.nim)).dedup

/-- `close_class_session` step 3: nims having any attendance record for this
jadwal today (no filter on `metode`). -/
def presentNims (db : DB) (jadwal_id : Nat) (today : Nat) : List String :=
  (db.log_absensi.filter (fun l =>
    l.jadwal_id == some jadwal_id && l.waktu_absen.day == today)).map (·.nim)

/-- The `ALPHA_SYSTEM` row inserted by `close_class_session` step 4. -/
def mkAlphaLog (log_id : Nat) (nim : String) (jadwal_id : Nat) (now : Timestamp) :
    LogAbsensi :=
  { log_id := log_id, task_id := none, nim := nim, jadwal_id := some jadwal_id,
    waktu_absen := now, metode := "ALPHA_SYSTEM", jumlah_muncul := 0,
    emosi_dominan := none, bukti_foto := none, is_disputed := false,
    keterangan_report := none }

/-- `close_class_session` (main.py lines 1191–1275): 404 if the jadwal is
unknown; insert one `ALPHA_SYSTEM` row (`jumlah_muncul=0`) for every nim
that is enrolled in the jadwal's student class with a registered embedding
but has no attendance record for this jadwal today; then set
`is_closed=True` on every `video_tasks` row bound to this jadwal. -/
def closeBody (db : DB) (jadwal : Jadwal) (jadwal_id today : Nat) (now : Timestamp) : DB :=
  let enrolled := closeEnrolledNims db jadwal.student_class_id
  let present := presentNims db jadwal_id today
  let toAlpha := enrolled.filter (fun n => !present.contains n)
  { db with
    log_absensi := db.log_absensi ++
      toAlpha.enum.map (fun p => mkAlphaLog (db.next_log_id + p.1) p.2 jadwal_id now),
    next_log_id := db.next_log_id + toAlpha.length,
    video_tasks := db.video_tasks.map (fun t =>
      if t.jadwal_id == some jadwal_id then { t with is_closed := true } else t) }

def close_class_session (db : DB) (jadwal_id : Nat) (today : Nat) (now : Timestamp) :
    Except String DB :=
  match findJadwal db jadwal_id with
  | none => .error "Jadwal tidak ditemukan"
  | some jadwal => .ok (closeBody db jadwal jadwal_id today now)

/-! ## Identity index (`main.py` §5: `identify_face_fast`, `reload_face_database_async`) -/

/-- `FACE_SIMILARITY_THRESHOLD = 0.50` (main.py line 247). -/
def FACE_SIMILARITY_THRESHOLD : ℚ := 1/2

/-- The in-memory face cache of `SystemStateManager`: `known_ids` and the
optional row matrix `known_matrix` (rows are pre-normalized embeddings).
`last_reload` is bookkeeping only and is not modelled. -/
structure SystemState where
  known_ids : List String
  known_matrix : Option (List (List ℚ))
deriving DecidableEq, Repr

/-- `np.dot` of two vectors. -/
def dotQ (a b : List ℚ) : ℚ := (List.zipWith (fun x y => x * y) a b).sum

/-- `np.argmax`: first index attaining the maximum; raises on an empty
array (the `none` case, which `identify_face_fast` turns into its
exception branch). -/
def npArgmax (scores : List ℚ) : Option Nat :=
  match scores.maximum with
  | none => none
  | some m => some (scores.indexOf m)

/-- `identify_face_fast` (main.py lines 455–493).  The float
`np.linalg.norm(embedding)` is passed in as `normEmb`.  The two possible
runtime exceptions (argmax of an empty matrix, `known_ids` shorter than the
matrix) are the `("Error", 0)` results, exactly as the `except` branch
returns them. -/
def identify_face_fast (st : SystemState) (embedding : List ℚ) (normEmb : ℚ) :
    String × ℚ :=
  match st.known_matrix with
  | none => ("Unknown", 0)
  | some matrix =>
      if st.known_ids.length = 0 then ("Unknown", 0)
      else
        let norm_emb := embedding.map (fun x => x / normEmb)
        let scores := matrix.map (fun row => dotQ row norm_emb)
        match npArgmax scores with
        | none => ("Error", 0)
        | some best_idx =>
            let max_score := scores.getD best_idx 0
            if max_score > FACE_SIMILARITY_THRESHOLD then
              match st.known_ids.get? best_idx with
              | some nim => (nim, max_score)
              | none => ("Error", 0)
            else ("Unknown", 0)

/-- `reload_face_database_async` (main.py lines 495–540).  `fetch` is the
outcome of the store round-trip for
`select(nim, embedding_data).where(embedding_data.isnot(None))`; an
`error` models the `except` branch firing before the state swap, so the
cache is left untouched.  `normOf` is the float `np.linalg.norm` used to
pre-normalize each row (the pgvector rows are plain float lists, so the
per-row conversion itself does not raise).  The swap empties the cache
exactly when the fetched row list is empty (`if temp_vectors:` falsy). -/
def reload_face_database (st : SystemState) (normOf : List ℚ → ℚ)
    (fetch : Except String (List (String × List ℚ))) : SystemState :=
  match fetch with
  | .error _ => st
  | .ok rows =>
      let temp_ids := rows.map (·.1)
      let temp_vectors := rows.map (fun r => r.2.map (fun x => x / normOf r.2))
      if temp_vectors.length ≠ 0 then
        { known_ids := temp_ids, known_matrix := some temp_vectors }
      else
        { known_ids := [], known_matrix := none }

/-! ## Frame sampler (`main.py` lines 745–822, `video_extractor.py` lines 51–124) -/

/-- A video resource: total frame count, frames-per-second, and the
`cap.set(POS_FRAMES, idx); cap.read()` seek-and-read, where `none` is a
failed read (`ret == False`). -/
structure Video where
  total_frames : Nat
  read : Nat → Option Nat

/-- `frame_interval = int(fps * 1.5)` (main.py line 754): Python `int()`
truncates, i.e. floor for the non-negative fps. -/
def frame_interval (fps : ℚ) : Nat := (⌊fps * (3/2 : ℚ)⌋).toNat

/-- `frame_jump = int(fps * INTERVAL_DETIK)` with `INTERVAL_DETIK = 5`
(video_extractor.py lines 14, 53). -/
def frame_jump (fps : ℚ) : Nat := (⌊fps * (5 : ℚ)⌋).toNat

/-- One fuel-indexed unfolding of the shared sampling loop
(main.py lines 762–820 and video_extractor.py lines 63–124): seek-and-read
at the current offset; a failed read ends the loop; otherwise process the
frame, advance by `step`, and stop once the next offset reaches the total
frame count.  Returns the list of sampled offsets, or `none` when the loop
is still running after `fuel` iterations. -/
def videoLoopFuel (v : Video) (step : Nat) : Nat → Nat → Option (List Nat)
  | 0, _ => none
  | fuel + 1, idx =>
      match v.read idx with
      | none => some []
      | some _ =>
          if v.total_frames ≤ idx + step then some [idx]
          else (videoLoopFuel v step fuel (idx + step)).map (fun l => idx :: l)

/-- The sampling loop started at offset 0 with enough fuel for one
iteration per frame (ample when the step is positive). -/
def sampledOffsets (v : Video) (step : Nat) : Option (List Nat) :=
  videoLoopFuel v step (v.total_frames + 1) 0

/-! ## `log_absensi` schema (`models.py` lines 127–153) -/

/-- A column declaration as written in `models.py`: name, `primary_key`
flag, `unique` flag. -/
structure ColumnSpec where
  name : String
  is_primary_key : Bool
  is_unique : Bool
deriving DecidableEq, Repr

/-- The columns of `log_absensi` (models.py lines 127–153): only `log_id`
is a primary key, no column carries `unique=True`. -/
def log_absensi_columns : List ColumnSpec :=
  [⟨"log_id", true, false⟩,
   ⟨"task_id", false, false⟩,
   ⟨"nim", false, false⟩,
   ⟨"jadwal_id", false, false⟩,
   ⟨"waktu_absen", false, false⟩,
   ⟨"metode", false, false⟩,
   ⟨"jumlah_muncul", false, false⟩,
   ⟨"emosi_dominan", false, false⟩,
   ⟨"bukti_foto", false, false⟩,
   ⟨"is_disputed", false, false⟩,
   ⟨"keterangan_report", false, false⟩]

/-- Table-level unique constraints of `log_absensi`: the class declares no
`__table_args__`, so there are none. -/
def log_absensi_table_constraints : List (List String) := []

/-- All sets of columns on which the table enforces uniqueness: one
singleton per `primary_key`/`unique` column, plus the table-level
constraints. -/
def uniqueKeySets (cols : List ColumnSpec) (tableConstraints : List (List String)) :
    List (List String) :=
  (cols.filter (fun c => c.is_primary_key || c.is_unique)).map (fun c => [c.name]) ++
    tableConstraints

/-- A table schema enforces at-most-one-row-per-`key` iff some unique
constraint covers a subset of `key`'s columns. -/
def schemaEnforcesKey (cols : List ColumnSpec) (tableConstraints : List (List String))
    (key : List String) : Bool :=
  (uniqueKeySets cols tableConstraints).any (fun u => u.all (fun c => key.contains c))

/-! ## Ledger invariant -/

/-- Two rows collide on the strict-binding attendance key. -/
def sameKey (r1 r2 : LogAbsensi) : Prop :=
  r1.nim = r2.nim ∧ r1.jadwal_id = r2.jadwal_id ∧ r1.waktu_absen.day = r2.waktu_absen.day

/-- The central ledger invariant: at most one `log_absensi` row per
(nim, jadwal_id, calendar day). -/
def AtMostOnePerKey (logs : List LogAbsensi) : Prop :=
  logs.Pairwise (fun r1 r2 => ¬ sameKey r1 r2)

/-- All attendance records of one student for one session. -/
def studentSessionLogs (logs : List LogAbsensi) (nim : String) (jadwal_id : Nat) :
    List LogAbsensi :=
  logs.filter (fun l => l.nim == nim && l.jadwal_id == some jadwal_id)

/-- Spec-side reading of "cohort member having a registered embedding":
some enrollment row binds the nim to the session's student class and the
student's `mahasiswa` row has a non-null embedding. -/
def isCohortMemberWithEmbedding (db : DB) (scid : Option Nat) (n : String) : Prop :=
  (∃ e ∈ db.kelas_enrollment, e.nim = n ∧ some e.student_class_id = scid) ∧
  (∃ m ∈ db.mahasiswa, m.nim = n ∧ m.embedding_data.isSome)

/-- Spec-side reading of "student with any attendance record for this
session today". -/
def hasRecordToday (db : DB) (jadwal_id today : Nat) (n : String) : Prop :=
  ∃ l ∈ db.log_absensi, l.nim = n ∧ l.jadwal_id = some jadwal_id ∧ l.waktu_absen.day = today

/-- A small concrete store used to instantiate the theorems: one cohort
(id 7) with four enrolled students, three of them with registered
embeddings, one session (id 10) bound to the cohort, one pending video
task, and an empty ledger. -/
def dbW : DB :=
  { mahasiswa := [⟨"S1", some [1, 0]⟩, ⟨"S2", some [0, 1]⟩, ⟨"S3", some [1, 1]⟩,
      ⟨"S4", none⟩],
    kelas_enrollment := [⟨1, "S1", 7⟩, ⟨2, "S2", 7⟩, ⟨3, "S3", 7⟩, ⟨4, "S4", 7⟩],
    jadwal := [⟨10, "dosen1", some 7⟩],
    video_tasks := [⟨1, "T1", "dosen1", some 10, "v.mp4", "processing", false⟩],
    log_absensi := [],
    next_log_id := 100 }

/-- `dbW` with an extra student "S5" that exists but is enrolled nowhere. -/
def dbW5 : DB := { dbW with mahasiswa := dbW.mahasiswa ++ [⟨"S5", none⟩] }

/-- `dbW` with one existing `AI_VIDEO` record for S1 on session 10, day 50. -/
def dbWai : DB :=
  { dbW with
    log_absensi := [newAutoLog 90 "T0" "S1" 10 ⟨50, 5⟩ ⟨2, [], some "/c/0.jpg"⟩] }

/-- `dbW` with one existing `MANUAL_DOSEN` record for S1 on session 10, day 50. -/
def dbWman : DB := { dbW with log_absensi := [newManualLog 90 "S1" 10 ⟨50, 8⟩] }

/-- A two-row identity index used to instantiate the query theorems. -/
def stW : SystemState := ⟨["A", "B"], some [[1, 0], [0, 1]]⟩

/-- A 100-frame video whose reads all succeed. -/
def vW : Video := ⟨100, fun i => some i⟩

/-! ## Generic lemmas about `find?` / `updateFirst` -/

section ListLemmas

variable {α : Type}

theorem find?_append_some {p : α → Bool} {l₁ l₂ : List α} {r : α}
    (h : l₁.find? p = some r) : (l₁ ++ l₂).find? p = some r := by
  rw [List.find?_append, h]; rfl

theorem find?_append_none {p : α → Bool} {l₁ l₂ : List α}
    (h : l₁.find? p = none) : (l₁ ++ l₂).find? p = l₂.find? p := by
  rw [List.find?_append, h]; rfl

theorem find?_updateFirst_self {p : α → Bool} {f : α → α}
    (hf : ∀ x, p x = true → p (f x) = true) :
    ∀ {l : List α} {r : α}, l.find? p = some r →
      (updateFirst p f l).find? p = some (f r) := by
  intro l
  induction l with
  | nil => intro r h; simp [List.find?] at h
  | cons x xs ih =>
      intro r h
      by_cases hx : p x = true
      · rw [List.find?_cons_of_pos _ hx] at h
        cases h
        simp only [updateFirst, if_pos hx]
        exact List.find?_cons_of_pos _ (hf x hx)
      · rw [List.find?_cons_of_neg _ hx] at h
        simp only [updateFirst, if_neg hx]
        rw [List.find?_cons_of_neg _ hx]
        exact ih h

theorem find?_updateFirst_disjoint {p q : α → Bool} {f : α → α}
    (h : ∀ x, p x = true → q x = false ∧ q (f x) = false) :
    ∀ l : List α, (updateFirst p f l).find? q = l.find? q := by
  intro l
  induction l with
  | nil => rfl
  | cons x xs ih =>
      by_cases hx : p x = true
      · simp only [updateFirst, if_pos hx]
        rw [List.find?_cons_of_neg _ (by simp [(h x hx).2]),
          List.find?_cons_of_neg _ (by simp [(h x hx).1])]
      · simp only [updateFirst, if_neg hx]
        by_cases hq : q x = true
        · rw [List.find?_cons_of_pos _ hq, List.find?_cons_of_pos _ hq]
        · rw [List.find?_cons_of_neg _ hq, List.find?_cons_of_neg _ hq]
          exact ih

theorem filter_updateFirst_disjoint {p q : α → Bool} {f : α → α}
    (h : ∀ x, p x = true → q x = false ∧ q (f x) = false) :
    ∀ l : List α, (updateFirst p f l).filter q = l.filter q := by
  intro l
  induction l with
  | nil => rfl
  | cons x xs ih =>
      by_cases hx : p x = true
      · simp only [updateFirst, if_pos hx]
        rw [List.filter_cons_of_neg (by simp [(h x hx).2]),
          List.filter_cons_of_neg (by simp [(h x hx).1])]
      · simp only [updateFirst, if_neg hx]
        by_cases hq : q x = true
        · rw [List.filter_cons_of_pos hq, List.filter_cons_of_pos hq, ih]
        · rw [List.filter_cons_of_neg (by simp [hq]), List.filter_cons_of_neg (by simp [hq])]
          exact ih

theorem mem_updateFirst {p : α → Bool} {f : α → α} :
    ∀ {l : List α} {y : α}, y ∈ updateFirst p f l →
      y ∈ l ∨ ∃ x ∈ l, p x = true ∧ y = f x := by
  intro l
  induction l with
  | nil => intro y hy; simp [updateFirst] at hy
  | cons x xs ih =>
      intro y hy
      by_cases hx : p x = true
      · simp only [updateFirst, if_pos hx, List.mem_cons] at hy
        rcases hy with hy | hy
        · exact Or.inr ⟨x, List.mem_cons_self x xs, hx, hy⟩
        · exact Or.inl (List.mem_cons_of_mem x hy)
      · simp only [updateFirst, if_neg hx, List.mem_cons] at hy
        rcases hy with hy | hy
        · exact Or.inl (hy ▸ List.mem_cons_self x xs)
        · rcases ih hy with h' | ⟨z, hz, hpz, hyz⟩
          · exact Or.inl (List.mem_cons_of_mem x h')
          · exact Or.inr ⟨z, List.mem_cons_of_mem x hz, hpz, hyz⟩

end ListLemmas

/-! ## Lemmas about the strict-binding key -/

theorem logMatches_iff {nim : String} {jid today : Nat} {l : LogAbsensi} :
    logMatches nim jid today l = true ↔
      (l.nim = nim ∧ l.jadwal_id = some jid ∧ l.waktu_absen.day = today) := by
  simp [logMatches, Bool.and_eq_true, beq_iff_eq, and_assoc]

theorem findLog_some_fields {logs : List LogAbsensi} {s : String} {jid today : Nat}
    {r : LogAbsensi} (h : findLog logs s jid today = some r) :
    r.nim = s ∧ r.jadwal_id = some jid ∧ r.waktu_absen.day = today :=
  logMatches_iff.mp (List.find?_some h)

theorem logMatches_of_ne_nim {nim nim' : String} {jid today : Nat} {l : LogAbsensi}
    (hne : nim ≠ nim') (h : logMatches nim jid today l = true) :
    logMatches nim' jid today l = false := by
  rcases logMatches_iff.mp h with ⟨h1, _, _⟩
  by_contra hq
  rcases logMatches_iff.mp (by simpa using hq) with ⟨h1', _, _⟩
  exact hne (h1 ▸ h1')

theorem sameKey_iff {r1 r2 : LogAbsensi} :
    sameKey r1 r2 ↔
      (r1.nim = r2.nim ∧ r1.jadwal_id = r2.jadwal_id ∧
        r1.waktu_absen.day = r2.waktu_absen.day) := Iff.rfl

/-- `updateFirst` with a key-preserving row mutation keeps the
at-most-one-row-per-key invariant. -/
theorem atMostOne_updateFirst {p : LogAbsensi → Bool} {f : LogAbsensi → LogAbsensi}
    (hf : ∀ x, p x = true → ((f x).nim = x.nim ∧ (f x).jadwal_id = x.jadwal_id ∧
      (f x).waktu_absen.day = x.waktu_absen.day)) :
    ∀ {l : List LogAbsensi}, AtMostOnePerKey l → AtMostOnePerKey (updateFirst p f l) := by
  intro l
  induction l with
  | nil => intro h; exact h
  | cons x xs ih =>
      intro h
      rw [AtMostOnePerKey, List.pairwise_cons] at h
      by_cases hx : p x = true
      · have hfx := hf x hx
        rw [AtMostOnePerKey]
        simp only [updateFirst, if_pos hx]
        rw [List.pairwise_cons]
        refine ⟨fun y hy hk => h.1 y hy ?_, h.2⟩
        rw [sameKey_iff] at hk ⊢
        rw [hfx.1, hfx.2.1, hfx.2.2] at hk
        exact hk
      · rw [AtMostOnePerKey]
        simp only [updateFirst, if_neg hx]
        rw [List.pairwise_cons]
        refine ⟨fun y hy hk => ?_, ih h.2⟩
        rcases mem_updateFirst hy with hy' | ⟨z, hz, hpz, hyz⟩
        · exact h.1 y hy' hk
        · have hfz := hf z hpz
          refine h.1 z hz ?_
          rw [sameKey_iff] at hk ⊢
          rw [hyz, hfz.1, hfz.2.1, hfz.2.2] at hk
          exact hk

/-! ## Lemmas about the automatic smart upsert -/

theorem upsertAuto_insert {logs : List LogAbsensi} {nid : Nat} {tid : String}
    {jid today : Nat} {now : Timestamp} {s : String} {ev : Evidence}
    (h : findLog logs s jid today = none) :
    upsertAuto logs nid tid jid today now s ev =
      (logs ++ [newAutoLog nid tid s jid now ev], nid + 1) := by
  simp [upsertAuto, h]

theorem findLog_append_new {logs : List LogAbsensi} {nid : Nat} {tid : String}
    {jid today : Nat} {now : Timestamp} {s : String} {ev : Evidence}
    (hnow : now.day = today) (h : findLog logs s jid today = none) :
    findLog (logs ++ [newAutoLog nid tid s jid now ev]) s jid today =
      some (newAutoLog nid tid s jid now ev) := by
  rw [findLog, find?_append_none h]
  exact List.find?_cons_of_pos _ (by simp [logMatches, newAutoLog, hnow])

theorem upsertAuto_merge_found {logs : List LogAbsensi} {nid : Nat} {tid : String}
    {jid today : Nat} {now : Timestamp} {s : String} {ev : Evidence} {r : LogAbsensi}
    (h : findLog logs s jid today = some r) (hAI : r.metode = "AI_VIDEO") :
    findLog (upsertAuto logs nid tid jid today now s ev).1 s jid today =
      some { r with jumlah_muncul := r.jumlah_muncul + ev.count } := by
  have hbeq : (r.metode == "AI_VIDEO") = true := by simp [hAI]
  simp only [upsertAuto, h, hbeq, if_pos]
  exact find?_updateFirst_self
    (f := fun x => { x with jumlah_muncul := x.jumlah_muncul + ev.count })
    (fun x hx => hx) h

theorem upsertAuto_skip {logs : List LogAbsensi} {nid : Nat} {tid : String}
    {jid today : Nat} {now : Timestamp} {s : String} {ev : Evidence} {r : LogAbsensi}
    (h : findLog logs s jid today = some r) (hnAI : r.metode ≠ "AI_VIDEO") :
    upsertAuto logs nid tid jid today now s ev = (logs, nid) := by
  have hbeq : (r.metode == "AI_VIDEO") = false := by simp [hnAI]
  simp [upsertAuto, h, hbeq]

theorem upsertAuto_preserves_some_other {logs : List LogAbsensi} {nid : Nat} {tid : String}
    {jid today : Nat} {now : Timestamp} {nim s : String} {ev : Evidence} {r : LogAbsensi}
    (hne : nim ≠ s) (h : findLog logs s jid today = some r) :
    findLog (upsertAuto logs nid tid jid today now nim ev).1 s jid today = some r := by
  cases hfind : findLog logs nim jid today with
  | none =>
      simp only [upsertAuto, hfind]
      exact find?_append_some h
  | some l =>
      by_cases hAI : (l.metode == "AI_VIDEO") = true
      · simp only [upsertAuto, hfind, hAI, if_pos]
        exact (find?_updateFirst_disjoint
            (q := logMatches s jid today)
            (f := fun x => { x with jumlah_muncul := x.jumlah_muncul + ev.count })
            (fun x hx => ⟨logMatches_of_ne_nim hne hx, logMatches_of_ne_nim hne hx⟩) logs).trans h
      · simp only [upsertAuto, hfind, if_neg hAI]
        exact h

theorem upsertAuto_preserves_none_other {logs : List LogAbsensi} {nid : Nat} {tid : String}
    {jid today : Nat} {now : Timestamp} {nim s : String} {ev : Evidence}
    (hne : nim ≠ s) (h : findLog logs s jid today = none) :
    findLog (upsertAuto logs nid tid jid today now nim ev).1 s jid today = none := by
  cases hfind : findLog logs nim jid today with
  | none =>
      simp only [upsertAuto, hfind]
      rw [findLog, find?_append_none h]
      exact List.find?_cons_of_neg _ (by simp [logMatches, newAutoLog, hne])
  | some l =>
      by_cases hAI : (l.metode == "AI_VIDEO") = true
      · simp only [upsertAuto, hfind, hAI, if_pos]
        exact (find?_updateFirst_disjoint
            (q := logMatches s jid today)
            (f := fun x => { x with jumlah_muncul := x.jumlah_muncul + ev.count })
            (fun x hx => ⟨logMatches_of_ne_nim hne hx, logMatches_of_ne_nim hne hx⟩) logs).trans h
      · simp only [upsertAuto, hfind, if_neg hAI]
        exact h

/-! ## Lemmas about one turn of the detected-students loop -/

theorem bvaStep_preserves_some (en : Option (List String)) (tid : String)
    {jid today : Nat} (now : Timestamp) {acc : List LogAbsensi × Nat}
    {p : String × Evidence} {s : String} {r : LogAbsensi}
    (h : findLog acc.1 s jid today = some r)
    (hcase : p.1 ≠ s ∨ r.metode ≠ "AI_VIDEO") :
    findLog (bvaStep en tid jid today now acc p).1 s jid today = some r := by
  have core : findLog (upsertAuto acc.1 acc.2 tid jid today now p.1 p.2).1 s jid today
      = some r := by
    by_cases hps : p.1 = s
    · rcases hcase with hne | hnAI
      · exact absurd hps hne
      · rw [upsertAuto_skip (hps ▸ h) hnAI]
        exact h
    · exact upsertAuto_preserves_some_other hps h
  cases en with
  | none => exact core
  | some ens =>
      by_cases hc : p.1 ∈ ens
      · simpa [bvaStep, hc] using core
      · simpa [bvaStep, hc] using h

theorem bvaStep_preserves_none (en : Option (List String)) (tid : String)
    {jid today : Nat} (now : Timestamp) {acc : List LogAbsensi × Nat}
    {p : String × Evidence} {s : String}
    (h : findLog acc.1 s jid today = none) (hne : p.1 ≠ s) :
    findLog (bvaStep en tid jid today now acc p).1 s jid today = none := by
  have core : findLog (upsertAuto acc.1 acc.2 tid jid today now p.1 p.2).1 s jid today
      = none := upsertAuto_preserves_none_other hne h
  cases en with
  | none => exact core
  | some ens =>
      by_cases hc : p.1 ∈ ens
      · simpa [bvaStep, hc] using core
      · simpa [bvaStep, hc] using h

theorem bvaFold_preserves_some (en : Option (List String)) (tid : String)
    {jid today : Nat} (now : Timestamp) :
    ∀ (d : List (String × Evidence)) (acc : List LogAbsensi × Nat) {s : String}
      {r : LogAbsensi},
      findLog acc.1 s jid today = some r →
      (∀ q ∈ d, q.1 ≠ s ∨ r.metode ≠ "AI_VIDEO") →
      findLog (d.foldl (bvaStep en tid jid today now) acc).1 s jid today = some r := by
  intro d
  induction d with
  | nil => intro acc s r h _; exact h
  | cons q qs ih =>
      intro acc s r h hd
      rw [List.foldl_cons]
      exact ih _ (bvaStep_preserves_some en tid now h (hd q (List.mem_cons_self q qs)))
        (fun q' hq' => hd q' (List.mem_cons_of_mem q hq'))

theorem bvaFold_preserves_none (en : Option (List String)) (tid : String)
    {jid today : Nat} (now : Timestamp) :
    ∀ (d : List (String × Evidence)) (acc : List LogAbsensi × Nat) {s : String},
      findLog acc.1 s jid today = none →
      (∀ q ∈ d, q.1 ≠ s) →
      findLog (d.foldl (bvaStep en tid jid today now) acc).1 s jid today = none := by
  intro d
  induction d with
  | nil => intro acc s h _; exact h
  | cons q qs ih =>
      intro acc s h hd
      rw [List.foldl_cons]
      exact ih _ (bvaStep_preserves_none en tid now h (hd q (List.mem_cons_self q qs)))
        (fun q' hq' => hd q' (List.mem_cons_of_mem q hq'))

/-! ## The background analyzer leaves the static tables alone -/

theorem bva_static (db : DB) (tid : String) (jid : Nat)
    (d : List (String × Evidence)) (today : Nat) (now : Timestamp) :
    (background_video_analyzer db tid jid d today now).mahasiswa = db.mahasiswa ∧
    (background_video_analyzer db tid jid d today now).kelas_enrollment =
      db.kelas_enrollment ∧
    (background_video_analyzer db tid jid d today now).jadwal = db.jadwal := by
  cases h : findJadwal db jid <;> simp [background_video_analyzer, h]

theorem bva_logs_eq {db : DB} {tid : String} {jid : Nat} {j : Jadwal}
    (d : List (String × Evidence)) (today : Nat) (now : Timestamp)
    (h : findJadwal db jid = some j) :
    (background_video_analyzer db tid jid d today now).log_absensi =
      (d.foldl
        (bvaStep (match j.student_class_id with
                  | some scid => some (enrolledNims db scid)
                  | none => none) tid jid today now)
        (db.log_absensi, db.next_log_id)).1 := by
  simp [background_video_analyzer, h]

/-! ## Invariant preservation through the automatic path -/

theorem upsertAuto_atMostOne {logs : List LogAbsensi} {nid : Nat} {tid : String}
    {jid today : Nat} {now : Timestamp} {nim : String} {ev : Evidence}
    (hnow : now.day = today) (hinv : AtMostOnePerKey logs) :
    AtMostOnePerKey (upsertAuto logs nid tid jid today now nim ev).1 := by
  cases hfind : findLog logs nim jid today with
  | none =>
      simp only [upsertAuto, hfind]
      rw [AtMostOnePerKey, List.pairwise_append]
      refine ⟨hinv, List.pairwise_singleton _ _, fun a ha b hb hk => ?_⟩
      have hb' : b = newAutoLog nid tid nim jid now ev := by simpa using hb
      have hnone := List.find?_eq_none.mp hfind a ha
      apply hnone
      rw [sameKey_iff] at hk
      rw [logMatches_iff]
      subst hb'
      refine ⟨hk.1, hk.2.1, ?_⟩
      rw [hk.2.2]
      exact hnow
  | some l =>
      by_cases hAI : (l.metode == "AI_VIDEO") = true
      · simp only [upsertAuto, hfind, hAI, if_pos]
        exact atMostOne_updateFirst
          (f := fun x => { x with jumlah_muncul := x.jumlah_muncul + ev.count })
          (fun x hx => ⟨rfl, rfl, rfl⟩) hinv
      · simp only [upsertAuto, hfind, if_neg hAI]
        exact hinv

theorem bvaStep_atMostOne {en : Option (List String)} {tid : String}
    {jid today : Nat} {now : Timestamp} {acc : List LogAbsensi × Nat}
    {p : String × Evidence}
    (hnow : now.day = today) (hinv : AtMostOnePerKey acc.1) :
    AtMostOnePerKey (bvaStep en tid jid today now acc p).1 := by
  have core : AtMostOnePerKey (upsertAuto acc.1 acc.2 tid jid today now p.1 p.2).1 :=
    upsertAuto_atMostOne hnow hinv
  cases en with
  | none => exact core
  | some ens =>
      by_cases hc : p.1 ∈ ens
      · simpa [bvaStep, hc] using core
      · simpa [bvaStep, hc] using hinv

theorem bvaFold_atMostOne {en : Option (List String)} {tid : String}
    {jid today : Nat} {now : Timestamp} (hnow : now.day = today) :
    ∀ (d : List (String × Evidence)) (acc : List LogAbsensi × Nat),
      AtMostOnePerKey acc.1 →
      AtMostOnePerKey (d.foldl (bvaStep en tid jid today now) acc).1 := by
  intro d
  induction d with
  | nil => intro acc h; exact h
  | cons q qs ih =>
      intro acc h
      rw [List.foldl_cons]
      exact ih _ (bvaStep_atMostOne hnow h)

/-! ## The automatic path never touches a non-enrolled student's records -/

theorem upsertAuto_preserves_ssLogs_other {logs : List LogAbsensi} {nid : Nat}
    {tid : String} {jid today : Nat} {now : Timestamp} {nim s : String} {ev : Evidence}
    (hne : nim ≠ s) :
    studentSessionLogs (upsertAuto logs nid tid jid today now nim ev).1 s jid =
      studentSessionLogs logs s jid := by
  have hq : ∀ x : LogAbsensi, logMatches nim jid today x = true →
      (x.nim == s && x.jadwal_id == some jid) = false := by
    intro x hx
    rcases logMatches_iff.mp hx with ⟨h1, _, _⟩
    simp [h1, hne]
  cases hfind : findLog logs nim jid today with
  | none =>
      simp only [upsertAuto, hfind]
      rw [studentSessionLogs, List.filter_append]
      have : (List.filter (fun l => l.nim == s && l.jadwal_id == some jid)
          [newAutoLog nid tid nim jid now ev]) = [] := by
        simp [newAutoLog, hne]
      rw [this, List.append_nil]
      rfl
  | some l =>
      by_cases hAI : (l.metode == "AI_VIDEO") = true
      · simp only [upsertAuto, hfind, hAI, if_pos]
        exact filter_updateFirst_disjoint
          (f := fun x => { x with jumlah_muncul := x.jumlah_muncul + ev.count })
          (fun x hx => ⟨hq x hx, hq x hx⟩) logs
      · simp only [upsertAuto, hfind, if_neg hAI]

theorem bvaFold_preserves_ssLogs {ens : List String} {tid : String}
    {jid today : Nat} {now : Timestamp} {s : String} (hs : ¬ s ∈ ens) :
    ∀ (d : List (String × Evidence)) (acc : List LogAbsensi × Nat),
      studentSessionLogs (d.foldl (bvaStep (some ens) tid jid today now) acc).1 s jid =
        studentSessionLogs acc.1 s jid := by
  intro d
  induction d with
  | nil => intro acc; rfl
  | cons q qs ih =>
      intro acc
      rw [List.foldl_cons, ih]
      by_cases hc : q.1 ∈ ens
      · have hne : q.1 ≠ s := fun h => hs (h ▸ hc)
        have hstep : bvaStep (some ens) tid jid today now acc q =
            upsertAuto acc.1 acc.2 tid jid today now q.1 q.2 := by
          simp [bvaStep, hc]
        rw [hstep]
        exact upsertAuto_preserves_ssLogs_other hne
      · have hstep : bvaStep (some ens) tid jid today now acc q = acc := by
          simp [bvaStep, hc]
        rw [hstep]

/-! ## Invariant preservation through the manual path -/

theorem atMostOne_append_single {logs : List LogAbsensi} {x : LogAbsensi} {jid today : Nat}
    (hnone : findLog logs x.nim jid today = none)
    (hx1 : x.jadwal_id = some jid) (hx2 : x.waktu_absen.day = today)
    (hinv : AtMostOnePerKey logs) : AtMostOnePerKey (logs ++ [x]) := by
  rw [AtMostOnePerKey, List.pairwise_append]
  refine ⟨hinv, List.pairwise_singleton _ _, fun a ha b hb hk => ?_⟩
  have hb' : b = x := by simpa using hb
  subst hb'
  apply List.find?_eq_none.mp hnone a ha
  rw [sameKey_iff] at hk
  rw [logMatches_iff]
  exact ⟨hk.1, hk.2.1.trans hx1, hk.2.2.trans hx2⟩

theorem manual_ok_cases {db : DB} {nim : String} {jid today : Nat} {now : Timestamp}
    {db' : DB} (h : endpoint_manual_absen db nim jid today now = .ok db') :
    ((∃ r, findLog db.log_absensi nim jid today = some r) ∧
      db' = { db with log_absensi := updateFirst (logMatches nim jid today) (manualOverwrite now) db.log_absensi }) ∨
    (findLog db.log_absensi nim jid today = none ∧
      db' = { db with
        log_absensi := db.log_absensi ++ [newManualLog db.next_log_id nim jid now],
        next_log_id := db.next_log_id + 1 }) := by
  unfold endpoint_manual_absen at h
  split at h
  · simp at h
  · split at h
    · simp at h
    · split at h
      · simp at h
      · cases hfl : findLog db.log_absensi nim jid today with
        | some r =>
            rw [hfl] at h
            injection h with h
            exact Or.inl ⟨⟨r, rfl⟩, h.symm⟩
        | none =>
            rw [hfl] at h
            injection h with h
            exact Or.inr ⟨rfl, h.symm⟩

theorem manual_atMostOne {db : DB} {nim : String} {jid today : Nat} {now : Timestamp}
    {db' : DB} (hnow : now.day = today)
    (h : endpoint_manual_absen db nim jid today now = .ok db')
    (hinv : AtMostOnePerKey db.log_absensi) : AtMostOnePerKey db'.log_absensi := by
  rcases manual_ok_cases h with ⟨_, hdb⟩ | ⟨hn, hdb⟩
  · subst hdb
    exact atMostOne_updateFirst (f := manualOverwrite now)
      (fun x hx => ⟨rfl, rfl, hnow.trans (logMatches_iff.mp hx).2.2.symm⟩) hinv
  · subst hdb
    exact atMostOne_append_single (x := newManualLog db.next_log_id nim jid now)
      hn rfl hnow hinv


/-! ## Membership characterizations for session close -/

theorem mem_presentNims {db : DB} {jid today : Nat} {n : String} :
    n ∈ presentNims db jid today ↔ hasRecordToday db jid today n := by
  constructor
  · intro h
    rw [presentNims, List.mem_map] at h
    rcases h with ⟨l, hl, hn⟩
    rw [List.mem_filter] at hl
    have hc := hl.2
    simp only [Bool.and_eq_true, beq_iff_eq] at hc
    exact ⟨l, hl.1, hn, hc.1, hc.2⟩
  · rintro ⟨l, hl, hn, hj, hd⟩
    rw [presentNims, List.mem_map]
    exact ⟨l, List.mem_filter.mpr ⟨hl, by simp [hj, hd]⟩, hn⟩

theorem mem_closeEnrolledNims {db : DB} {scid : Option Nat} {n : String} :
    n ∈ closeEnrolledNims db scid ↔ isCohortMemberWithEmbedding db scid n := by
  rw [closeEnrolledNims, List.mem_dedup, List.mem_map]
  constructor
  · rintro ⟨e, he, hn⟩
    rw [List.mem_filter] at he
    have hcond := he.2
    simp only [Bool.and_eq_true, beq_iff_eq] at hcond
    rcases hcond with ⟨hsc, hfind⟩
    rw [List.find?_isSome] at hfind
    rcases hfind with ⟨m, hm, hmc⟩
    simp only [Bool.and_eq_true, beq_iff_eq] at hmc
    exact ⟨⟨e, he.1, hn, hsc⟩, ⟨m, hm, hmc.1.trans hn, hmc.2⟩⟩
  · rintro ⟨⟨e, he, hn, hsc⟩, ⟨m, hm, hmn, hemb⟩⟩
    refine ⟨e, List.mem_filter.mpr ⟨he, ?_⟩, hn⟩
    simp only [Bool.and_eq_true, beq_iff_eq]
    refine ⟨hsc, ?_⟩
    rw [List.find?_isSome]
    exact ⟨m, hm, by simp [hmn, hn, hemb]⟩

/-! ## Invariant preservation through session close -/

theorem atMostOne_append_alphas {logs : List LogAbsensi} {toA : List String}
    {nid jid today : Nat} {now : Timestamp}
    (hnow : now.day = today) (hnd : toA.Nodup)
    (hnp : ∀ n ∈ toA, ∀ a ∈ logs,
      ¬ (a.nim = n ∧ a.jadwal_id = some jid ∧ a.waktu_absen.day = today))
    (hinv : AtMostOnePerKey logs) :
    AtMostOnePerKey
      (logs ++ toA.enum.map (fun p => mkAlphaLog (nid + p.1) p.2 jid now)) := by
  rw [AtMostOnePerKey, List.pairwise_append]
  refine ⟨hinv, ?_, ?_⟩
  · rw [List.pairwise_map]
    have h2 : List.Pairwise (fun a b => a ≠ b) (toA.enum.map Prod.snd) := by
      rw [List.enum_map_snd]; exact hnd
    rw [List.pairwise_map] at h2
    exact h2.imp (fun hne hk => hne (sameKey_iff.mp hk).1)
  · intro a ha b hb hk
    rw [List.mem_map] at hb
    rcases hb with ⟨p, hp, hbp⟩
    have hpmem : p.2 ∈ toA := by
      have := List.mem_map_of_mem Prod.snd hp
      rwa [List.enum_map_snd] at this
    apply hnp p.2 hpmem a ha
    subst hbp
    rw [sameKey_iff] at hk
    exact ⟨hk.1, hk.2.1, hk.2.2.trans hnow⟩

theorem close_atMostOne {db : DB} {jid today : Nat} {now : Timestamp} {db' : DB}
    (hnow : now.day = today)
    (h : close_class_session db jid today now = .ok db')
    (hinv : AtMostOnePerKey db.log_absensi) : AtMostOnePerKey db'.log_absensi := by
  cases hj : findJadwal db jid with
  | none => rw [close_class_session, hj] at h; simp at h
  | some j =>
      rw [close_class_session, hj] at h
      injection h with h
      subst h
      apply atMostOne_append_alphas hnow
      · apply List.Nodup.filter
        rw [closeEnrolledNims]
        exact List.nodup_dedup _
      · intro n hn a ha hkey
        rw [List.mem_filter] at hn
        have hcont : (presentNims db jid today).contains n = false := by
          simpa using hn.2
        have hnp : ¬ n ∈ presentNims db jid today := by
          intro hmem
          have hcont' : List.elem n (presentNims db jid today) = false := hcont
          rw [List.elem_iff.mpr hmem] at hcont'
          exact absurd hcont' (by simp)
        apply hnp
        rw [mem_presentNims]
        exact ⟨a, ha, hkey.1, hkey.2.1, hkey.2.2⟩
      · exact hinv


/-! ## Claim theorems -/

/-- C5 (counterexample): the claim asserts that the store schema enforces
uniqueness of the (student, session, day) attendance key, but the
`log_absensi` table of models.py carries no unique constraint on any subset
of those columns — its only uniqueness is the `log_id` primary key — so the
schema-enforcement half of the claim is false. -/
theorem C5_schema_counterexample :
    schemaEnforcesKey log_absensi_columns log_absensi_table_constraints
      ["nim", "jadwal_id", "waktu_absen"] = false := by decide

/-- C5 (amended): every ledger operation — automatic evidence apply, manual
entry, session close — run sequentially with a consistent clock preserves
the at-most-one-record-per-(student, session, day) invariant, but the store
schema does **not** enforce this key's uniqueness (no unique constraint
covers any subset of the key's columns). -/
theorem C5_ledger_ops_preserve_key_invariant :
    (∀ (db : DB) (tid : String) (jid : Nat) (detected : List (String × Evidence))
        (today : Nat) (now : Timestamp), now.day = today →
        AtMostOnePerKey db.log_absensi →
        AtMostOnePerKey
          (background_video_analyzer db tid jid detected today now).log_absensi) ∧
    (∀ (db : DB) (nim : String) (jid today : Nat) (now : Timestamp) (db' : DB),
        now.day = today → endpoint_manual_absen db nim jid today now = .ok db' →
        AtMostOnePerKey db.log_absensi → AtMostOnePerKey db'.log_absensi) ∧
    (∀ (db : DB) (jid today : Nat) (now : Timestamp) (db' : DB),
        now.day = today → close_class_session db jid today now = .ok db' →
        AtMostOnePerKey db.log_absensi → AtMostOnePerKey db'.log_absensi) ∧
    schemaEnforcesKey log_absensi_columns log_absensi_table_constraints
      ["nim", "jadwal_id", "waktu_absen"] = false := by
  refine ⟨?_, fun db nim jid today now db' h1 h2 h3 => manual_atMostOne h1 h2 h3,
    fun db jid today now db' h1 h2 h3 => close_atMostOne h1 h2 h3, by decide⟩
  intro db tid jid detected today now hnow hinv
  cases hj : findJadwal db jid with
  | none => simpa [background_video_analyzer, hj] using hinv
  | some j =>
      rw [bva_logs_eq detected today now hj]
      exact bvaFold_atMostOne hnow detected _ hinv

/-- C5 (witness): the amended theorem instantiated on the concrete store
`dbW`, one video, one manual entry and one session close. -/
theorem C5_ledger_ops_witness :
    AtMostOnePerKey
      (background_video_analyzer dbW "T1" 10 [("S1", ⟨3, [], some "/c/1.jpg"⟩)]
        50 ⟨50, 9⟩).log_absensi ∧
    AtMostOnePerKey
      ({ dbW with
          log_absensi := [newManualLog 100 "S1" 10 ⟨50, 11⟩],
          next_log_id := 101 } : DB).log_absensi ∧
    AtMostOnePerKey (closeBody dbW ⟨10, "dosen1", some 7⟩ 10 50 ⟨50, 12⟩).log_absensi := by
  refine ⟨C5_ledger_ops_preserve_key_invariant.1 dbW "T1" 10 _ 50 ⟨50, 9⟩ rfl
      List.Pairwise.nil,
    C5_ledger_ops_preserve_key_invariant.2.1 dbW "S1" 10 50 ⟨50, 11⟩ _ rfl (by rfl)
      List.Pairwise.nil,
    C5_ledger_ops_preserve_key_invariant.2.2.1 dbW 10 50 ⟨50, 12⟩ _ rfl (by rfl)
      List.Pairwise.nil⟩


/-- C2: an existing attendance record for (student, session, today) whose
method is `MANUAL_DOSEN` or `ALPHA_SYSTEM` is left completely unchanged
(the strict-binding lookup still returns the identical record, every field
included) by applying automatic video evidence for that student and
session. -/
theorem C2_manual_records_untouched_by_auto (db : DB) (tid : String) (jid : Nat)
    (detected : List (String × Evidence)) (today : Nat) (now : Timestamp)
    (s : String) (r : LogAbsensi)
    (h : findLog db.log_absensi s jid today = some r)
    (hm : r.metode = "MANUAL_DOSEN" ∨ r.metode = "ALPHA_SYSTEM") :
    findLog (background_video_analyzer db tid jid detected today now).log_absensi
      s jid today = some r := by
  have hnAI : r.metode ≠ "AI_VIDEO" := by
    rcases hm with h1 | h1 <;> rw [h1] <;> decide
  cases hj : findJadwal db jid with
  | none => simpa [background_video_analyzer, hj] using h
  | some j =>
      rw [bva_logs_eq detected today now hj]
      exact bvaFold_preserves_some _ _ _ detected _ h (fun q hq => Or.inr hnAI)

/-- C2 (witness): the manual record of S1 survives a video that detects S1
again, byte for byte. -/
theorem C2_witness :
    findLog (background_video_analyzer dbWman "T1" 10 [("S1", ⟨4, [], some "/c/2.jpg"⟩)]
        50 ⟨50, 9⟩).log_absensi "S1" 10 50 = some (newManualLog 90 "S1" 10 ⟨50, 8⟩) :=
  C2_manual_records_untouched_by_auto dbWman "T1" 10 [("S1", ⟨4, [], some "/c/2.jpg"⟩)]
    50 ⟨50, 9⟩ "S1" (newManualLog 90 "S1" 10 ⟨50, 8⟩) (by rfl) (Or.inl rfl)

/-- C4: for a session whose cohort resolves, a student who is not enrolled
in that cohort never gains or loses an attendance record for that session
from automatic video evidence: the student's records for the session are
exactly the ones present before the run. -/
theorem C4_no_cross_cohort_leakage (db : DB) (tid : String) (jid : Nat)
    (detected : List (String × Evidence)) (today : Nat) (now : Timestamp)
    (j : Jadwal) (c : Nat) (s : String)
    (hj : findJadwal db jid = some j) (hc : j.student_class_id = some c)
    (hs : ¬ s ∈ enrolledNims db c) :
    studentSessionLogs
        (background_video_analyzer db tid jid detected today now).log_absensi s jid =
      studentSessionLogs db.log_absensi s jid := by
  rw [bva_logs_eq detected today now hj, hc]
  exact bvaFold_preserves_ssLogs hs detected _

/-- C4 (witness): student S5 exists but is not enrolled in cohort 7; a video
for session 10 carrying evidence for S5 leaves S5's (empty) record set for
the session unchanged. -/
theorem C4_witness :
    studentSessionLogs
        (background_video_analyzer dbW5 "T1" 10 [("S5", ⟨6, [], some "/c/5.jpg"⟩)]
          50 ⟨50, 9⟩).log_absensi "S5" 10 =
      studentSessionLogs dbW5.log_absensi "S5" 10 :=
  C4_no_cross_cohort_leakage dbW5 "T1" 10 [("S5", ⟨6, [], some "/c/5.jpg"⟩)] 50 ⟨50, 9⟩
    ⟨10, "dosen1", some 7⟩ 7 "S5" (by rfl) rfl (by decide)


/-- C3: for an existing student and session, manual entry (i) when the
student is enrolled in the session's cohort, succeeds and leaves the
(student, session, today) record with `metode=MANUAL_DOSEN`, dispute flag
cleared, dispute reason cleared and timestamp refreshed regardless of the
prior state, inserting a fresh record with `jumlah_muncul=1` when none
existed; and (ii) when the student is not enrolled, is rejected with an
error (so, the transaction being rolled back, no record is created or
modified). -/
theorem C3_manual_entry_upsert_and_reject (db : DB) (s : String) (jid today : Nat)
    (now : Timestamp) (j : Jadwal)
    (hm : ∃ m ∈ db.mahasiswa, m.nim = s)
    (hj : findJadwal db jid = some j)
    (hnow : now.day = today) :
    ((∃ e ∈ db.kelas_enrollment,
        e.nim = s ∧ some e.student_class_id = j.student_class_id) →
      ∃ db' r, endpoint_manual_absen db s jid today now = .ok db' ∧
        findLog db'.log_absensi s jid today = some r ∧
        r.metode = "MANUAL_DOSEN" ∧ r.is_disputed = false ∧
        r.keterangan_report = none ∧ r.waktu_absen = now ∧
        (findLog db.log_absensi s jid today = none →
          r.jumlah_muncul = 1 ∧ db'.log_absensi = db.log_absensi ++ [r])) ∧
    ((¬ ∃ e ∈ db.kelas_enrollment,
        e.nim = s ∧ some e.student_class_id = j.student_class_id) →
      endpoint_manual_absen db s jid today now =
        .error "Mahasiswa tidak terdaftar di kelas ini.") := by
  have hfindm : (db.mahasiswa.find? (fun m => m.nim == s)).isNone = false := by
    rcases hm with ⟨m, hmm, hnim⟩
    cases hopt : db.mahasiswa.find? (fun m => m.nim == s) with
    | some _ => rfl
    | none =>
        exact absurd (List.find?_eq_none.mp hopt m hmm) (by simp [hnim])
  constructor
  · rintro ⟨e, he, hens, hesc⟩
    have hef : ∃ e0, db.kelas_enrollment.find?
        (fun e0 => e0.nim == s && some e0.student_class_id == j.student_class_id)
          = some e0 := by
      cases hopt : db.kelas_enrollment.find?
          (fun e0 => e0.nim == s && some e0.student_class_id == j.student_class_id) with
      | some e0 => exact ⟨e0, rfl⟩
      | none =>
          exact absurd (List.find?_eq_none.mp hopt e he) (by simp [hens, hesc])
    rcases hef with ⟨e0, hef⟩
    cases hfl : findLog db.log_absensi s jid today with
    | some r0 =>
        refine ⟨{ db with log_absensi := updateFirst (logMatches s jid today) (manualOverwrite now) db.log_absensi }, manualOverwrite now r0,
          by simp only [endpoint_manual_absen, hfindm, Bool.false_eq_true, if_false,
            hj, hef, hfl], ?_, rfl, rfl, rfl, rfl,
          fun hnone => absurd hnone (by simp)⟩
        exact find?_updateFirst_self (f := manualOverwrite now)
          (p := logMatches s jid today)
          (fun x hx =>
            logMatches_iff.mpr
              ⟨(logMatches_iff.mp hx).1, (logMatches_iff.mp hx).2.1, hnow⟩) hfl
    | none =>
        refine ⟨{ db with log_absensi := db.log_absensi ++ [newManualLog db.next_log_id s jid now], next_log_id := db.next_log_id + 1 }, newManualLog db.next_log_id s jid now,
          by simp only [endpoint_manual_absen, hfindm, Bool.false_eq_true, if_false,
            hj, hef, hfl], ?_, rfl, rfl, rfl, rfl, fun _ => ⟨rfl, rfl⟩⟩
        rw [findLog, find?_append_none hfl]
        exact List.find?_cons_of_pos _ (by simp [logMatches, newManualLog, hnow])
  · intro hnenr
    have hef : db.kelas_enrollment.find?
        (fun e0 => e0.nim == s && some e0.student_class_id == j.student_class_id)
          = none := by
      cases hopt : db.kelas_enrollment.find?
          (fun e0 => e0.nim == s && some e0.student_class_id == j.student_class_id) with
      | none => rfl
      | some e0 =>
          have hp := List.find?_some hopt
          simp only [Bool.and_eq_true, beq_iff_eq] at hp
          exact absurd ⟨e0, List.mem_of_find?_eq_some hopt, hp.1, hp.2⟩ hnenr
    simp only [endpoint_manual_absen, hfindm, Bool.false_eq_true, if_false, hj, hef]


/-- C3 (witness): on the concrete store, manual entry for the enrolled S1
succeeds with a MANUAL record, and manual entry for the existing but
unenrolled S5 is rejected. -/
theorem C3_witness :
    (∃ db' r, endpoint_manual_absen dbW5 "S1" 10 50 ⟨50, 11⟩ = .ok db' ∧
      findLog db'.log_absensi "S1" 10 50 = some r ∧
      r.metode = "MANUAL_DOSEN" ∧ r.is_disputed = false ∧
      r.keterangan_report = none ∧ r.waktu_absen = ⟨50, 11⟩ ∧
      (findLog dbW5.log_absensi "S1" 10 50 = none →
        r.jumlah_muncul = 1 ∧ db'.log_absensi = dbW5.log_absensi ++ [r])) ∧
    endpoint_manual_absen dbW5 "S5" 10 50 ⟨50, 11⟩ =
      .error "Mahasiswa tidak terdaftar di kelas ini." := by
  constructor
  · exact (C3_manual_entry_upsert_and_reject dbW5 "S1" 10 50 ⟨50, 11⟩
      ⟨10, "dosen1", some 7⟩ ⟨⟨"S1", some [1, 0]⟩, by decide, rfl⟩ rfl rfl).1
      ⟨⟨1, "S1", 7⟩, by decide, rfl, rfl⟩
  · exact (C3_manual_entry_upsert_and_reject dbW5 "S5" 10 50 ⟨50, 11⟩
      ⟨10, "dosen1", some 7⟩ ⟨⟨"S5", none⟩, by decide, rfl⟩ rfl rfl).2
      (by decide)


/-! ## Step lemmas for the detected student itself -/

theorem bvaStep_merge_found (en : Option (List String)) (tid : String)
    {jid today : Nat} (now : Timestamp) {acc : List LogAbsensi × Nat}
    {s : String} (ev : Evidence) {r : LogAbsensi}
    (hpass : ∀ ens, en = some ens → s ∈ ens)
    (h : findLog acc.1 s jid today = some r) (hAI : r.metode = "AI_VIDEO") :
    findLog (bvaStep en tid jid today now acc (s, ev)).1 s jid today =
      some { r with jumlah_muncul := r.jumlah_muncul + ev.count } := by
  cases en with
  | none => exact upsertAuto_merge_found h hAI
  | some ens =>
      have hmem := hpass ens rfl
      have hstep : bvaStep (some ens) tid jid today now acc (s, ev) =
          upsertAuto acc.1 acc.2 tid jid today now s ev := by
        simp [bvaStep, hmem]
      rw [hstep]
      exact upsertAuto_merge_found h hAI

theorem bvaStep_insert_found (en : Option (List String)) (tid : String)
    {jid today : Nat} (now : Timestamp) {acc : List LogAbsensi × Nat}
    {s : String} (ev : Evidence)
    (hpass : ∀ ens, en = some ens → s ∈ ens)
    (h : findLog acc.1 s jid today = none) (hnow : now.day = today) :
    findLog (bvaStep en tid jid today now acc (s, ev)).1 s jid today =
      some (newAutoLog acc.2 tid s jid now ev) := by
  have core : findLog (upsertAuto acc.1 acc.2 tid jid today now s ev).1 s jid today =
      some (newAutoLog acc.2 tid s jid now ev) := by
    rw [upsertAuto_insert h]
    exact findLog_append_new hnow h
  cases en with
  | none => exact core
  | some ens =>
      have hmem := hpass ens rfl
      have hstep : bvaStep (some ens) tid jid today now acc (s, ev) =
          upsertAuto acc.1 acc.2 tid jid today now s ev := by
        simp [bvaStep, hmem]
      rw [hstep]
      exact core

theorem findJadwal_bva (db : DB) (tid : String) (jid' : Nat)
    (d : List (String × Evidence)) (today : Nat) (now : Timestamp) (jid : Nat) :
    findJadwal (background_video_analyzer db tid jid' d today now) jid =
      findJadwal db jid := by
  unfold findJadwal
  rw [(bva_static db tid jid' d today now).2.2]

theorem enrolledNims_bva (db : DB) (tid : String) (jid' : Nat)
    (d : List (String × Evidence)) (today : Nat) (now : Timestamp) (c : Nat) :
    enrolledNims (background_video_analyzer db tid jid' d today now) c =
      enrolledNims db c := by
  unfold enrolledNims
  rw [(bva_static db tid jid' d today now).2.1]


/-- C1: (A) applying automatic video evidence for a student whose existing
(student, session, today) record has `metode=AI_VIDEO` updates exactly the
appearance count — the looked-up record afterwards is the old record with
`jumlah_muncul` incremented by the evidence count, every other field
(evidence path and dominant affect included) unchanged; (B) hence two
videos processed sequentially for the same session and student, starting
from no record, leave a record whose count is the sum of the two per-video
counts and whose evidence path is the first video's crop. -/
theorem C1_auto_merge_and_two_video_sum (db : DB) (tid1 tid2 : String)
    (jid today : Nat) (now1 now2 : Timestamp) (j : Jadwal) (s : String)
    (hj : findJadwal db jid = some j)
    (hen : ∀ c, j.student_class_id = some c → s ∈ enrolledNims db c)
    (hn1 : now1.day = today) (hn2 : now2.day = today) :
    (∀ (d₁ d₂ : List (String × Evidence)) (ev : Evidence) (r : LogAbsensi),
      ¬ s ∈ d₁.map Prod.fst → ¬ s ∈ d₂.map Prod.fst →
      findLog db.log_absensi s jid today = some r → r.metode = "AI_VIDEO" →
      findLog (background_video_analyzer db tid1 jid (d₁ ++ (s, ev) :: d₂)
          today now1).log_absensi s jid today =
        some { r with jumlah_muncul := r.jumlah_muncul + ev.count }) ∧
    (∀ (a₁ b₁ a₂ b₂ : List (String × Evidence)) (ev1 ev2 : Evidence),
      ¬ s ∈ a₁.map Prod.fst → ¬ s ∈ b₁.map Prod.fst →
      ¬ s ∈ a₂.map Prod.fst → ¬ s ∈ b₂.map Prod.fst →
      findLog db.log_absensi s jid today = none →
      ∃ r₁ r₂,
        findLog (background_video_analyzer db tid1 jid (a₁ ++ (s, ev1) :: b₁)
            today now1).log_absensi s jid today = some r₁ ∧
        r₁.jumlah_muncul = ev1.count ∧ r₁.bukti_foto = ev1.sample ∧
        r₁.metode = "AI_VIDEO" ∧
        findLog (background_video_analyzer
            (background_video_analyzer db tid1 jid (a₁ ++ (s, ev1) :: b₁) today now1)
            tid2 jid (a₂ ++ (s, ev2) :: b₂) today now2).log_absensi s jid today =
          some r₂ ∧
        r₂.jumlah_muncul = ev1.count + ev2.count ∧ r₂.bukti_foto = ev1.sample) := by
  set M : Option (List String) :=
    (match j.student_class_id with
     | some scid => some (enrolledNims db scid)
     | none => none) with hM
  have hpass : ∀ ens, M = some ens → s ∈ ens := by
    intro ens hens
    rw [hM] at hens
    cases hsc : j.student_class_id with
    | none => rw [hsc] at hens; cases hens
    | some c =>
        rw [hsc] at hens
        injection hens with hens
        exact hens ▸ hen c hsc
  have hne₁ : ∀ (d : List (String × Evidence)), ¬ s ∈ d.map Prod.fst →
      ∀ q ∈ d, q.1 ≠ s := by
    intro d hd q hq he
    exact hd (he ▸ List.mem_map_of_mem Prod.fst hq)
  constructor
  · intro d₁ d₂ ev r hd₁ hd₂ hr hAI
    have h1 := bvaFold_preserves_some M tid1 now1 d₁ (db.log_absensi, db.next_log_id)
      hr (fun q hq => Or.inl (hne₁ d₁ hd₁ q hq))
    have h2 := bvaStep_merge_found M tid1 now1 ev hpass h1 hAI
    have h3 := bvaFold_preserves_some M tid1 now1 d₂ _ h2
      (fun q hq => Or.inl (hne₁ d₂ hd₂ q hq))
    rw [bva_logs_eq _ _ _ hj, ← hM, List.foldl_append, List.foldl_cons]
    exact h3
  · intro a₁ b₁ a₂ b₂ ev1 ev2 ha₁ hb₁ ha₂ hb₂ hnone
    have h1 := bvaFold_preserves_none M tid1 now1 a₁ (db.log_absensi, db.next_log_id)
      hnone (hne₁ a₁ ha₁)
    have h2 := bvaStep_insert_found M tid1 now1 ev1 hpass h1 hn1
    have h3 := bvaFold_preserves_some M tid1 now1 b₁ _ h2
      (fun q hq => Or.inl (hne₁ b₁ hb₁ q hq))
    set db1 := background_video_analyzer db tid1 jid (a₁ ++ (s, ev1) :: b₁) today now1
      with hdb1
    have hlogs1 : db1.log_absensi =
        (List.foldl (bvaStep M tid1 jid today now1)
          (bvaStep M tid1 jid today now1
            (List.foldl (bvaStep M tid1 jid today now1)
              (db.log_absensi, db.next_log_id) a₁) (s, ev1)) b₁).1 := by
      rw [hdb1, bva_logs_eq _ _ _ hj, ← hM, List.foldl_append, List.foldl_cons]
    have hfind1 : findLog db1.log_absensi s jid today =
        some (newAutoLog
          (List.foldl (bvaStep M tid1 jid today now1)
            (db.log_absensi, db.next_log_id) a₁).2 tid1 s jid now1 ev1) := by
      rw [hlogs1]; exact h3
    have hj2 : findJadwal db1 jid = some j := by
      rw [hdb1, findJadwal_bva]; exact hj
    have hen2 : (match j.student_class_id with
        | some scid => some (enrolledNims db1 scid)
        | none => none) = M := by
      rw [hM]
      cases j.student_class_id with
      | none => rfl
      | some c =>
          have hE : enrolledNims db1 c = enrolledNims db c := by
            rw [hdb1]
            exact enrolledNims_bva db tid1 jid (a₁ ++ (s, ev1) :: b₁) today now1 c
          simp only [hE]
    have h4 := bvaFold_preserves_some M tid2 now2 a₂
      (db1.log_absensi, db1.next_log_id) hfind1
      (fun q hq => Or.inl (hne₁ a₂ ha₂ q hq))
    have h5 := bvaStep_merge_found M tid2 now2 ev2 hpass h4 rfl
    have h6 := bvaFold_preserves_some M tid2 now2 b₂ _ h5
      (fun q hq => Or.inl (hne₁ b₂ hb₂ q hq))
    have hlogs2 : (background_video_analyzer db1 tid2 jid (a₂ ++ (s, ev2) :: b₂)
        today now2).log_absensi =
        (List.foldl (bvaStep M tid2 jid today now2)
          (bvaStep M tid2 jid today now2
            (List.foldl (bvaStep M tid2 jid today now2)
              (db1.log_absensi, db1.next_log_id) a₂) (s, ev2)) b₂).1 := by
      rw [bva_logs_eq _ _ _ hj2, hen2, List.foldl_append, List.foldl_cons]
    refine ⟨newAutoLog
        (List.foldl (bvaStep M tid1 jid today now1)
          (db.log_absensi, db.next_log_id) a₁).2 tid1 s jid now1 ev1,
      { newAutoLog
          (List.foldl (bvaStep M tid1 jid today now1)
            (db.log_absensi, db.next_log_id) a₁).2 tid1 s jid now1 ev1 with
        jumlah_muncul := (newAutoLog
          (List.foldl (bvaStep M tid1 jid today now1)
            (db.log_absensi, db.next_log_id) a₁).2 tid1 s jid now1 ev1).jumlah_muncul
            + ev2.count },
      hfind1, rfl, rfl, rfl, ?_, rfl, rfl⟩
    rw [hlogs2]
    exact h6


/-- C1 (witness): on the concrete store, a video merging into S1's existing
AUTO record (count 2) with per-video count 4 leaves count 6 and the
original crop; and two sequential videos for S1 (counts 3 then 4) leave
count 7 with the first video's crop. -/
theorem C1_witness :
    (findLog (background_video_analyzer dbWai "T1" 10
        ([] ++ ("S1", ⟨4, [], some "/c/2.jpg"⟩) :: []) 50 ⟨50, 9⟩).log_absensi
        "S1" 10 50 =
      some { newAutoLog 90 "T0" "S1" 10 ⟨50, 5⟩ ⟨2, [], some "/c/0.jpg"⟩ with
        jumlah_muncul :=
          (newAutoLog 90 "T0" "S1" 10 ⟨50, 5⟩
            ⟨2, [], some "/c/0.jpg"⟩).jumlah_muncul + 4 }) ∧
    (∃ r₁ r₂,
      findLog (background_video_analyzer dbW "T1" 10
          ([] ++ ("S1", ⟨3, [], some "/c/1.jpg"⟩) :: []) 50 ⟨50, 9⟩).log_absensi
          "S1" 10 50 = some r₁ ∧
      r₁.jumlah_muncul = 3 ∧ r₁.bukti_foto = some "/c/1.jpg" ∧
      r₁.metode = "AI_VIDEO" ∧
      findLog (background_video_analyzer
          (background_video_analyzer dbW "T1" 10
            ([] ++ ("S1", ⟨3, [], some "/c/1.jpg"⟩) :: []) 50 ⟨50, 9⟩)
          "T2" 10 ([] ++ ("S1", ⟨4, [], none⟩) :: []) 50 ⟨50, 10⟩).log_absensi
          "S1" 10 50 = some r₂ ∧
      r₂.jumlah_muncul = 3 + 4 ∧ r₂.bukti_foto = some "/c/1.jpg") := by
  constructor
  · exact (C1_auto_merge_and_two_video_sum dbWai "T1" "T2" 10 50 ⟨50, 9⟩ ⟨50, 10⟩
      ⟨10, "dosen1", some 7⟩ "S1" rfl (by intro c hc; cases hc; decide) rfl rfl).1
      [] [] ⟨4, [], some "/c/2.jpg"⟩
      (newAutoLog 90 "T0" "S1" 10 ⟨50, 5⟩ ⟨2, [], some "/c/0.jpg"⟩)
      (by simp) (by simp) rfl rfl
  · exact (C1_auto_merge_and_two_video_sum dbW "T1" "T2" 10 50 ⟨50, 9⟩ ⟨50, 10⟩
      ⟨10, "dosen1", some 7⟩ "S1" rfl (by intro c hc; cases hc; decide) rfl rfl).2
      [] [] [] [] ⟨3, [], some "/c/1.jpg"⟩ ⟨4, [], none⟩
      (by simp) (by simp) (by simp) (by simp) rfl


theorem contains_eq_false_iff {α : Type} [BEq α] [LawfulBEq α] (l : List α) (a : α) :
    l.contains a = false ↔ ¬ a ∈ l := by
  constructor
  · intro hf hmem
    have ht : List.elem a l = true := List.elem_iff.mpr hmem
    rw [show l.contains a = List.elem a l from rfl, ht] at hf
    exact absurd hf (by simp)
  · intro hnm
    cases hc : l.contains a with
    | false => rfl
    | true => exact absurd (List.elem_iff.mp hc) hnm

/-- C6: closing a session succeeds (for an existing session) and appends,
for exactly the set of students enrolled in the session's cohort with a
registered embedding and without any attendance record for this session
today, one `ALPHA_SYSTEM` record each with `jumlah_muncul=0`, and marks
every video task bound to this session `is_closed=true`. -/
theorem C6_close_inserts_absent_set_difference (db : DB) (jid today : Nat)
    (now : Timestamp) (j : Jadwal) (hj : findJadwal db jid = some j) :
    ∃ db' newLogs, close_class_session db jid today now = .ok db' ∧
      db'.log_absensi = db.log_absensi ++ newLogs ∧
      (newLogs.map (fun r => r.nim)).Nodup ∧
      (∀ n, n ∈ newLogs.map (fun r => r.nim) ↔
        (isCohortMemberWithEmbedding db j.student_class_id n ∧
          ¬ hasRecordToday db jid today n)) ∧
      (∀ r ∈ newLogs, r.metode = "ALPHA_SYSTEM" ∧ r.jumlah_muncul = 0 ∧
        r.jadwal_id = some jid ∧ r.waktu_absen = now ∧ r.is_disputed = false) ∧
      db'.video_tasks = db.video_tasks.map (fun t =>
        if t.jadwal_id == some jid then { t with is_closed := true } else t) ∧
      (∀ t ∈ db'.video_tasks, t.jadwal_id = some jid → t.is_closed = true) := by
  have hmapnim : ∀ (L : List String) (nid : Nat),
      ((L.enum.map (fun p => mkAlphaLog (nid + p.1) p.2 jid now)).map
        (fun r => r.nim)) = L := by
    intro L nid
    rw [List.map_map]
    exact List.enum_map_snd L
  have hsplit : (closeBody db j jid today now).log_absensi =
      db.log_absensi ++
        ((closeEnrolledNims db j.student_class_id).filter
          (fun n => !(presentNims db jid today).contains n)).enum.map
          (fun p => mkAlphaLog (db.next_log_id + p.1) p.2 jid now) := rfl
  refine ⟨closeBody db j jid today now, _,
    by rw [close_class_session, hj], hsplit, ?_, ?_, ?_, rfl, ?_⟩
  · rw [hmapnim]
    apply List.Nodup.filter
    rw [closeEnrolledNims]
    exact List.nodup_dedup _
  · intro n
    rw [hmapnim, List.mem_filter, mem_closeEnrolledNims]
    constructor
    · rintro ⟨h1, h2⟩
      refine ⟨h1, ?_⟩
      have h2' : (presentNims db jid today).contains n = false := by
        cases hcc : (presentNims db jid today).contains n with
        | false => rfl
        | true => rw [hcc] at h2; exact absurd h2 (by simp)
      rw [contains_eq_false_iff, mem_presentNims] at h2'
      exact h2'
    · rintro ⟨h1, h2⟩
      refine ⟨h1, ?_⟩
      have h2' : ¬ n ∈ presentNims db jid today := fun hm =>
        h2 (mem_presentNims.mp hm)
      rw [← contains_eq_false_iff] at h2'
      rw [h2']
      rfl
  · intro r hr
    rw [List.mem_map] at hr
    rcases hr with ⟨p, hp, he⟩
    subst he
    exact ⟨rfl, rfl, rfl, rfl, rfl⟩
  · intro t ht hjid
    have ht' : t ∈ db.video_tasks.map (fun t =>
        if t.jadwal_id == some jid then { t with is_closed := true } else t) := ht
    rw [List.mem_map] at ht'
    rcases ht' with ⟨t₀, ht₀, he⟩
    by_cases hb : (t₀.jadwal_id == some jid) = true
    · rw [if_pos hb] at he
      rw [← he]
    · rw [if_neg hb] at he
      subst he
      exact absurd (by simp [hjid]) hb


/-- C6 (witness): closing session 10 on the concrete store (S1 already has
an AUTO record) yields the instantiated set-difference description. -/
theorem C6_witness :
    ∃ db' newLogs, close_class_session dbWai 10 50 ⟨50, 12⟩ = .ok db' ∧
      db'.log_absensi = dbWai.log_absensi ++ newLogs ∧
      (newLogs.map (fun r => r.nim)).Nodup ∧
      (∀ n, n ∈ newLogs.map (fun r => r.nim) ↔
        (isCohortMemberWithEmbedding dbWai (some 7) n ∧
          ¬ hasRecordToday dbWai 10 50 n)) ∧
      (∀ r ∈ newLogs, r.metode = "ALPHA_SYSTEM" ∧ r.jumlah_muncul = 0 ∧
        r.jadwal_id = some 10 ∧ r.waktu_absen = ⟨50, 12⟩ ∧ r.is_disputed = false) ∧
      db'.video_tasks = dbWai.video_tasks.map (fun t =>
        if t.jadwal_id == some 10 then { t with is_closed := true } else t) ∧
      (∀ t ∈ db'.video_tasks, t.jadwal_id = some 10 → t.is_closed = true) :=
  C6_close_inserts_absent_set_difference dbWai 10 50 ⟨50, 12⟩
    ⟨10, "dosen1", some 7⟩ rfl

/-- C7: closing a session is idempotent — if a close (run with a clock whose
day is `today`) produced the store `db₁`, a second close of the same
session on the same day returns `db₁` unchanged: no additional
`ALPHA_SYSTEM` rows are inserted because the set difference now excludes
every student recorded by the first run. -/
theorem C7_close_idempotent (db : DB) (jid today : Nat) (now1 now2 : Timestamp)
    (db₁ : DB) (hn1 : now1.day = today)
    (h1 : close_class_session db jid today now1 = .ok db₁) :
    close_class_session db₁ jid today now2 = .ok db₁ := by
  cases hj : findJadwal db jid with
  | none => rw [close_class_session, hj] at h1; simp at h1
  | some j =>
      rw [close_class_session, hj] at h1
      injection h1 with h1
      subst h1
      have hj₁ : findJadwal (closeBody db j jid today now1) jid = some j := hj
      rw [close_class_session, hj₁]
      suffices hfix :
          closeBody (closeBody db j jid today now1) j jid today now2 =
            closeBody db j jid today now1 by
        show Except.ok (closeBody (closeBody db j jid today now1) j jid today now2) =
          Except.ok (closeBody db j jid today now1)
        rw [hfix]
      have htoAlpha :
          (closeEnrolledNims (closeBody db j jid today now1)
            j.student_class_id).filter
            (fun n => !(presentNims (closeBody db j jid today now1)
              jid today).contains n) = [] := by
        rw [List.filter_eq_nil_iff]
        intro n hn
        suffices hmem : n ∈ presentNims (closeBody db j jid today now1) jid today by
          intro hp
          have hc : (presentNims (closeBody db j jid today now1)
              jid today).contains n = false := by
            cases hcc : (presentNims (closeBody db j jid today now1)
                jid today).contains n with
            | false => rfl
            | true => rw [hcc] at hp; exact absurd hp (by simp)
          exact (contains_eq_false_iff _ n).mp hc hmem
        rw [mem_presentNims]
        by_cases hp0 : n ∈ presentNims db jid today
        · rcases mem_presentNims.mp hp0 with ⟨l, hl, hfacts⟩
          exact ⟨l, List.mem_append_left _ hl, hfacts⟩
        · have hnt : n ∈ (closeEnrolledNims db j.student_class_id).filter
              (fun m => !(presentNims db jid today).contains m) := by
            rw [List.mem_filter]
            refine ⟨hn, ?_⟩
            rw [← contains_eq_false_iff] at hp0
            rw [hp0]
            rfl
          have hmap : n ∈ ((closeEnrolledNims db j.student_class_id).filter
              (fun m => !(presentNims db jid today).contains m)).enum.map
              Prod.snd := by
            rw [List.enum_map_snd]
            exact hnt
          rw [List.mem_map] at hmap
          rcases hmap with ⟨p, hp, hp2⟩
          refine ⟨mkAlphaLog (db.next_log_id + p.1) p.2 jid now1, ?_, hp2, rfl, hn1⟩
          exact List.mem_append_right _ (List.mem_map_of_mem _ hp)
      have htasks :
          ((closeBody db j jid today now1).video_tasks).map (fun t =>
            if t.jadwal_id == some jid then { t with is_closed := true } else t) =
          (closeBody db j jid today now1).video_tasks := by
        have hbase : (closeBody db j jid today now1).video_tasks =
            db.video_tasks.map (fun t =>
              if t.jadwal_id == some jid then { t with is_closed := true } else t) :=
          rfl
        rw [hbase, List.map_map]
        apply List.map_congr_left
        intro t ht
        by_cases hb : (t.jadwal_id == some jid) = true
        · simp only [Function.comp_apply, if_pos hb]
        · simp only [Function.comp_apply, if_neg hb]
      show ({ closeBody db j jid today now1 with
        log_absensi := (closeBody db j jid today now1).log_absensi ++
          ((closeEnrolledNims (closeBody db j jid today now1)
            j.student_class_id).filter
            (fun n => !(presentNims (closeBody db j jid today now1)
              jid today).contains n)).enum.map
            (fun p => mkAlphaLog ((closeBody db j jid today now1).next_log_id + p.1)
              p.2 jid now2),
        next_log_id := (closeBody db j jid today now1).next_log_id +
          ((closeEnrolledNims (closeBody db j jid today now1)
            j.student_class_id).filter
            (fun n => !(presentNims (closeBody db j jid today now1)
              jid today).contains n)).length,
        video_tasks := ((closeBody db j jid today now1).video_tasks).map (fun t =>
          if t.jadwal_id == some jid then { t with is_closed := true } else t)
        } : DB) = closeBody db j jid today now1
      rw [htoAlpha, htasks]
      simp


/-- C7 (witness): closing session 10 twice on the concrete store returns
the once-closed store unchanged. -/
theorem C7_witness :
    close_class_session (closeBody dbWai ⟨10, "dosen1", some 7⟩ 10 50 ⟨50, 12⟩)
        10 50 ⟨50, 13⟩ =
      .ok (closeBody dbWai ⟨10, "dosen1", some 7⟩ 10 50 ⟨50, 12⟩) :=
  C7_close_idempotent dbWai 10 50 ⟨50, 12⟩ ⟨50, 13⟩ _ rfl rfl

/-- C8: the identity-index query returns "Unknown" with score 0 whenever
the matrix is absent or the id list empty; otherwise, writing `scores` for
the cosine similarities of every stored row against the normalized input
(input divided by its norm `n`), if the maximum score exceeds the 0.50
threshold the query returns the id stored at an arg-max row together with
that maximum score, and otherwise returns "Unknown" with score 0. -/
theorem C8_identify_face_query (st : SystemState) (e : List ℚ) (n : ℚ) :
    ((st.known_matrix = none ∨ st.known_ids = []) →
      identify_face_fast st e n = ("Unknown", 0)) ∧
    (∀ M, st.known_matrix = some M → st.known_ids ≠ [] →
      st.known_ids.length = M.length →
      ∀ m, (M.map (fun row => dotQ row (e.map (fun x => x / n)))).maximum = some m →
        ((m > FACE_SIMILARITY_THRESHOLD →
          ∃ i nim,
            (M.map (fun row => dotQ row (e.map (fun x => x / n)))).get? i = some m ∧
            st.known_ids.get? i = some nim ∧
            identify_face_fast st e n = (nim, m)) ∧
        (¬ m > FACE_SIMILARITY_THRESHOLD →
          identify_face_fast st e n = ("Unknown", 0)))) := by
  constructor
  · intro h
    rcases h with h | h
    · simp [identify_face_fast, h]
    · cases hm : st.known_matrix with
      | none => simp [identify_face_fast, hm]
      | some M => simp [identify_face_fast, hm, h]
  · intro M hM hne hlen m hmax
    set scores := M.map (fun row => dotQ row (e.map (fun x => x / n))) with hs
    have hargmax : npArgmax scores = some (scores.indexOf m) := by
      rw [npArgmax, hmax]
    have hidx : scores.indexOf m < scores.length :=
      List.indexOf_lt_length.mpr (List.maximum_mem hmax)
    have hgetm : scores.getD (scores.indexOf m) 0 = m := by
      rw [List.getD_eq_getElem scores 0 hidx]
      exact List.getElem_indexOf hidx
    have hscoreslen : scores.length = M.length := by
      rw [hs, List.length_map]
    have hid : scores.indexOf m < st.known_ids.length := by
      rw [hlen, ← hscoreslen]
      exact hidx
    have hlen0 : ¬ st.known_ids.length = 0 := fun h0 =>
      hne (List.length_eq_zero.mp h0)
    have hgetid : st.known_ids.get? (scores.indexOf m) =
        some (st.known_ids.get ⟨scores.indexOf m, hid⟩) := List.get?_eq_get hid
    constructor
    · intro hgt
      refine ⟨scores.indexOf m, st.known_ids.get ⟨scores.indexOf m, hid⟩, ?_, hgetid, ?_⟩
      · rw [List.get?_eq_get hidx]
        have : scores.get ⟨scores.indexOf m, hidx⟩ = m := by
          rw [List.get_eq_getElem]
          exact List.getElem_indexOf hidx
        rw [this]
      · simp only [identify_face_fast, hM, if_neg hlen0, ← hs, hargmax]
        rw [hgetm, if_pos hgt, hgetid]
    · intro hngt
      simp only [identify_face_fast, hM, if_neg hlen0, ← hs, hargmax]
      rw [hgetm, if_neg hngt]


/-- C8 (witness): the empty index answers "Unknown"; on a two-row index the
input [3,4] with norm 5 matches row "B" with score 4/5. -/
theorem C8_witness :
    identify_face_fast ⟨[], none⟩ [3, 4] 5 = ("Unknown", 0) ∧
    (∃ i nim,
      (([[1, 0], [0, 1]] : List (List ℚ)).map
        (fun row => dotQ row ([3, 4].map (fun x => x / 5)))).get? i
          = some (4/5) ∧
      stW.known_ids.get? i = some nim ∧
      identify_face_fast stW [3, 4] 5 = (nim, 4/5)) := by
  have hmap : ([[1, 0], [0, 1]] : List (List ℚ)).map
      (fun row => dotQ row ([3, 4].map (fun x => x / 5))) = [3/5, 4/5] := by
    norm_num [dotQ]
  have hmax : (([[1, 0], [0, 1]] : List (List ℚ)).map
      (fun row => dotQ row ([3, 4].map (fun x => x / 5)))).maximum = some (4/5) := by
    rw [hmap]
    have h1 : ((3:ℚ)/5) ≤ 4/5 := by norm_num
    simp only [List.maximum_cons, List.maximum_nil, ← WithBot.coe_sup,
      sup_bot_eq, sup_eq_right.mpr h1]
    rfl
  have hgt : (4/5 : ℚ) > FACE_SIMILARITY_THRESHOLD := by
    norm_num [FACE_SIMILARITY_THRESHOLD]
  refine ⟨(C8_identify_face_query ⟨[], none⟩ [3, 4] 5).1 (Or.inl rfl), ?_⟩
  exact ((C8_identify_face_query stW [3, 4] 5).2 [[1, 0], [0, 1]] rfl (by simp [stW])
    rfl (4/5) hmax).1 hgt

/-- C10: a failed store fetch during the in-memory face-index reload leaves
the index exactly as it was (the swap happens only after a successful
fetch); a successful fetch returning zero rows empties the index; and a
successful fetch returning at least one row installs exactly the fetched
nims, so the index is emptied only in the zero-row case. -/
theorem C10_reload_failure_keeps_snapshot (st : SystemState)
    (normOf : List ℚ → ℚ) :
    (∀ msg, reload_face_database st normOf (.error msg) = st) ∧
    reload_face_database st normOf (.ok []) = ⟨[], none⟩ ∧
    (∀ rows, rows ≠ [] →
      (reload_face_database st normOf (.ok rows)).known_ids =
        rows.map (fun r => r.1) ∧
      (reload_face_database st normOf (.ok rows)).known_matrix ≠ none) := by
  refine ⟨fun msg => rfl, rfl, ?_⟩
  intro rows hrows
  have hlen : (rows.map (fun r => r.2.map (fun x => x / normOf r.2))).length ≠ 0 := by
    rw [List.length_map]
    intro h0
    exact hrows (List.length_eq_zero.mp h0)
  constructor
  · simp only [reload_face_database, if_pos hlen]
  · simp only [reload_face_database, if_pos hlen]
    intro hcontra
    cases hcontra

/-- C10 (witness): a failing fetch leaves the two-row index untouched, and
a one-row fetch installs that row. -/
theorem C10_witness :
    reload_face_database stW (fun v => 5) (.error "db down") = stW ∧
    reload_face_database stW (fun v => 5) (.ok []) = ⟨[], none⟩ ∧
    (reload_face_database stW (fun v => 5) (.ok [("A", [3, 4])])).known_ids =
      [("A", ([3, 4] : List ℚ))].map (fun r => r.1) ∧
    (reload_face_database stW (fun v => 5)
      (.ok [("A", [3, 4])])).known_matrix ≠ none := by
  refine ⟨(C10_reload_failure_keeps_snapshot stW (fun v => 5)).1 "db down",
    (C10_reload_failure_keeps_snapshot stW (fun v => 5)).2.1, ?_, ?_⟩
  · exact ((C10_reload_failure_keeps_snapshot stW (fun v => 5)).2.2
      [("A", [3, 4])] (by decide)).1
  · exact ((C10_reload_failure_keeps_snapshot stW (fun v => 5)).2.2
      [("A", [3, 4])] (by decide)).2

/-! ## The sampling loop: termination and offset shape -/

theorem videoLoopFuel_spec (v : Video) (step : Nat) (hs : 1 ≤ step) :
    ∀ (fuel idx : Nat), v.total_frames ≤ idx + fuel * step →
      ∃ l, videoLoopFuel v step (fuel + 1) idx = some l ∧
        l = (List.range l.length).map (fun k => idx + k * step) ∧
        (∀ o ∈ l, (v.read o).isSome) ∧
        (v.total_frames ≤ idx + l.length * step ∨
          v.read (idx + l.length * step) = none) := by
  intro fuel
  induction fuel with
  | zero =>
      intro idx hle
      cases hr : v.read idx with
      | none =>
          exact ⟨[], by simp [videoLoopFuel, hr], by simp, by simp,
            Or.inr (by simpa using hr)⟩
      | some f =>
          have hif : v.total_frames ≤ idx + step := by
            refine le_trans ?_ (Nat.le_add_right idx step)
            simpa using hle
          refine ⟨[idx], by simp [videoLoopFuel, hr, hif],
            by rw [show List.range [idx].length = [0] from rfl]; simp, ?_, Or.inl ?_⟩
          · intro o ho
            have : o = idx := by simpa using ho
            subst this
            simp [hr]
          · simpa using hif
  | succ fuel ih =>
      intro idx hle
      cases hr : v.read idx with
      | none =>
          exact ⟨[], by simp [videoLoopFuel, hr], by simp, by simp,
            Or.inr (by simpa using hr)⟩
      | some f =>
          by_cases hif : v.total_frames ≤ idx + step
          · refine ⟨[idx], by simp [videoLoopFuel, hr, hif],
              by rw [show List.range [idx].length = [0] from rfl]; simp, ?_, Or.inl ?_⟩
            · intro o ho
              have : o = idx := by simpa using ho
              subst this
              simp [hr]
            · simpa using hif
          · have hle' : v.total_frames ≤ (idx + step) + fuel * step := by
              have harith : idx + (fuel + 1) * step = (idx + step) + fuel * step := by
                ring
              rw [← harith]
              exact hle
            rcases ih (idx + step) hle' with ⟨l', hl', hshape, hreads, hterm⟩
            have hstep2 : videoLoopFuel v step (fuel + 1 + 1) idx =
                (videoLoopFuel v step (fuel + 1) (idx + step)).map
                  (fun l => idx :: l) := by
              conv_lhs => rw [videoLoopFuel]
              rw [hr, if_neg hif]
            refine ⟨idx :: l', ?_, ?_, ?_, ?_⟩
            · rw [hstep2, hl']
              rfl
            · rw [List.length_cons, List.range_succ_eq_map, List.map_cons]
              congr 1
              · simp
              · conv_lhs => rw [hshape]
                rw [List.map_map]
                apply List.map_congr_left
                intro k hk
                simp only [Function.comp_apply]
                rw [Nat.succ_mul]
                ring
            · intro o ho
              rcases List.mem_cons.mp ho with h | h
              · subst h
                simp [hr]
              · exact hreads o h
            · have harith : idx + (l'.length + 1) * step =
                  (idx + step) + l'.length * step := by ring
              rw [List.length_cons, harith]
              exact hterm


/-- C9 (counterexample): the claim's offset formula k·round(fps × interval)
does not match the code. For fps = 29.97 the code's
`frame_interval = int(fps * 1.5)` truncates 44.955 to 44, while
round(fps × 1.5) = 45: on a 100-frame video whose reads all succeed the
loop samples offsets [0, 44, 88], not the claimed [0, 45, 90]. -/
theorem C9_counterexample :
    frame_interval (2997/100) = 44 ∧
    (round ((2997 : ℚ)/100 * (3/2))).toNat = 45 ∧
    sampledOffsets vW (frame_interval (2997/100)) = some [0, 44, 88] ∧
    ¬ [0, 44, 88] = (List.range 3).map
      (fun k => k * (round ((2997 : ℚ)/100 * (3/2))).toNat) := by
  have h1 : frame_interval (2997/100) = 44 := by
    rw [frame_interval]
    have : ⌊(2997/100 : ℚ) * (3/2)⌋ = (44 : ℤ) := by norm_num
    rw [this]
    rfl
  have h2 : (round ((2997 : ℚ)/100 * (3/2))).toNat = 45 := by
    have : round ((2997 : ℚ)/100 * (3/2)) = (45 : ℤ) := by
      rw [round_eq]
      norm_num
    rw [this]
    rfl
  refine ⟨h1, h2, ?_, ?_⟩
  · rw [h1]
    decide
  · rw [h2]
    decide

/-- C9 (amended): the sampling loop of `background_video_analyzer` (and the
identical loop of `process_video_background`) samples offsets
k·int(fps × interval) — Python truncation, not rounding.  When the
truncated step is at least 1 the loop terminates within one iteration per
frame: it returns the finite offset list 0, step, 2·step, …, every sampled
offset was a successful read, and it stops exactly when the next offset
reaches the total frame count or the read at the next offset fails, without
retrying.  When the truncated step is 0 (fps × interval < 1) and the first
read succeeds on a nonempty video, the loop never terminates: no fuel bound
makes it finish. -/
theorem C9_sampling_floor_offsets_and_termination (v : Video) (fps : ℚ) :
    (1 ≤ frame_interval fps →
      ∃ l, sampledOffsets v (frame_interval fps) = some l ∧
        l = (List.range l.length).map (fun k => k * frame_interval fps) ∧
        (∀ o ∈ l, (v.read o).isSome) ∧
        (v.total_frames ≤ l.length * frame_interval fps ∨
          v.read (l.length * frame_interval fps) = none)) ∧
    (frame_interval fps = 0 → (v.read 0).isSome → 1 ≤ v.total_frames →
      ∀ fuel, videoLoopFuel v (frame_interval fps) fuel 0 = none) := by
  constructor
  · intro hs
    have hle : v.total_frames ≤ 0 + v.total_frames * frame_interval fps := by
      rw [Nat.zero_add]
      calc v.total_frames = v.total_frames * 1 := (Nat.mul_one _).symm
        _ ≤ v.total_frames * frame_interval fps := Nat.mul_le_mul_left _ hs
    rcases videoLoopFuel_spec v (frame_interval fps) hs v.total_frames 0 hle with
      ⟨l, hl, hshape, hreads, hterm⟩
    refine ⟨l, hl, ?_, hreads, ?_⟩
    · conv_lhs => rw [hshape]
      apply List.map_congr_left
      intro k hk
      rw [Nat.zero_add]
    · simpa using hterm
  · intro h0 hread htot fuel
    induction fuel with
    | zero => rfl
    | succ fuel ih =>
        rcases Option.isSome_iff_exists.mp hread with ⟨f, hf⟩
        rw [h0] at ih ⊢
        conv_lhs => rw [videoLoopFuel]
        rw [hf, if_neg (by omega)]
        rw [show (0 + 0 : Nat) = 0 from rfl, ih]
        rfl

/-- C9 (witness): for fps = 30 (step 45) the loop on the 100-frame video
terminates with the characterized offsets; for fps = 0.5 (step 0) it never
finishes, e.g. not within 1000 iterations. -/
theorem C9_witness :
    (∃ l, sampledOffsets vW (frame_interval 30) = some l ∧
      l = (List.range l.length).map (fun k => k * frame_interval 30) ∧
      (∀ o ∈ l, (vW.read o).isSome) ∧
      (vW.total_frames ≤ l.length * frame_interval 30 ∨
        vW.read (l.length * frame_interval 30) = none)) ∧
    videoLoopFuel vW (frame_interval (1/2)) 1000 0 = none := by
  constructor
  · apply (C9_sampling_floor_offsets_and_termination vW 30).1
    rw [frame_interval]
    have : ⌊(30 : ℚ) * (3/2)⌋ = (45 : ℤ) := by norm_num
    rw [this]
    omega
  · apply (C9_sampling_floor_offsets_and_termination vW (1/2)).2 ?_ rfl (by decide) 1000
    rw [frame_interval]
    have : ⌊(1/2 : ℚ) * (3/2)⌋ = (0 : ℤ) := by norm_num
    rw [this]
    rfl

end EduSense
